import Mathlib

/-!
# Verification of the py-shiny reactive engine and namespace module

Shallow embedding of `src/shiny/reactives.py` and `src/shiny/_namespaces.py`.
Python objects are modelled with explicit identity (an object id) so that the
`is` comparison of `ReactiveVal.set` is identity, not structural equality.
The collaborating module `reactcore` (Context, Dependents, flush) is not part
of the provided sources; its operations are modelled from the spec and are
marked as such in their doc comments.
-/

namespace Shiny

/-! ## Namespaces module (`src/shiny/_namespaces.py`) -/

/-- A word character for the purposes of the compiled pattern `^\.?\w+$` in
`_namespaces.py`.  On ASCII input Python's `\w` is exactly a letter, a digit
or an underscore; Python's `\w` additionally accepts non-ASCII Unicode word
characters, which this model does not enumerate (theorems about the full
character class therefore restrict attention to ASCII strings). -/
def pyWordChar (c : Char) : Bool :=
  c.isAlphanum || c = '_'

/-- Continuation of a `\w+$` match under Python `re.match` semantics: the
remaining characters are further word characters, and `$` succeeds at the end
of the string or immediately before a single trailing newline (so the last
character may instead be a newline). -/
def wordsThenDollar : List Char → Bool
  | [] => true
  | [c] => pyWordChar c || c == '\n'
  | c :: rest => pyWordChar c && wordsThenDollar rest

/-- Match `\w+$` (at least one word character, then `$`). -/
def wordPlusDollar : List Char → Bool
  | [] => false
  | c :: rest => pyWordChar c && wordsThenDollar rest

/-- `re_valid_id.match(id)` from `_namespaces.py`: Python `re.match` of the
pattern `^\.?\w+$` against the whole string.  The optional leading dot is
consumed when present (backtracking cannot help: `\w+` never matches `.`),
then `\w+$` must match the remainder. -/
def reValidIdMatch (s : String) : Bool :=
  match s.data with
  | [] => false
  | c :: rest => if c = '.' then wordPlusDollar rest else wordPlusDollar (c :: rest)

/-- The error message built by `validate_id` for an invalid id. -/
def invalidIdMessage (s : String) : String :=
  "The string '" ++ s ++ "' is not a valid id; only letters, numbers, and " ++
    "underscore are permitted"

/-- `validate_id` from `_namespaces.py`: raises `ValueError` (modelled as
`Except.error` carrying the message) when the pattern does not match. -/
def validate_id (s : String) : Except String Unit :=
  if reValidIdMatch s then Except.ok () else Except.error (invalidIdMessage s)

/-- The spec's stated pattern `^\.?[A-Za-z0-9_]+$`, read as a full anchored
match over the ASCII class: an optional leading dot followed by one or more
ASCII letters, digits or underscores, and nothing else (no trailing
newline). -/
def specIdMatch (s : String) : Bool :=
  let asciiWord : Char → Bool := fun c =>
    (('A' ≤ c && c ≤ 'Z') || ('a' ≤ c && c ≤ 'z') ||
     ('0' ≤ c && c ≤ '9') || c = '_')
  match s.data with
  | '.' :: rest => !rest.isEmpty && rest.all asciiWord
  | l => !l.isEmpty && l.all asciiWord

/-- An argument to `ResolvedId.__call__` / `resolve_id`: either a plain
Python `str` or an already-resolved `ResolvedId` (a `str` subclass; the
`isinstance` check distinguishes the two). -/
inductive Id where
  | plainId (s : String)
  | resolvedId (s : String)
deriving DecidableEq, Repr

/-- `ResolvedId.__call__` from `_namespaces.py`: an already-resolved id is
returned unchanged (no validation); a plain string is validated, then
returned as-is under the root (empty) namespace and otherwise prefixed with
the namespace and a `-` separator. -/
def resolvedIdCall (self : String) : Id → Except String String
  | Id.resolvedId s => Except.ok s
  | Id.plainId s =>
    match validate_id s with
    | Except.error m => Except.error m
    | Except.ok _ =>
      if self = "" then Except.ok s else Except.ok (self ++ "-" ++ s)

/-- `resolve_id` from `_namespaces.py`: applies the current namespace (here
an explicit parameter standing for `_current_namespace.get()`) to the id. -/
def resolve_id (currentNamespace : String) (id : Id) : Except String String :=
  resolvedIdCall currentNamespace id

/-! ## Reactive engine (`src/shiny/reactives.py`)

Python values are modelled with explicit object identity so that the `is`
comparison in `ReactiveVal.set` is identity, not structural equality:
`PyObj.obj oid payload` carries an object id (identity) and a payload (the
"value" the object would compare equal by); `PyObj.pynone` is the `None`
singleton. -/

/-- A Python object: `None`, or an object with an identity and a payload. -/
inductive PyObj where
  | pynone
  | obj (oid : Nat) (payload : Int)
deriving DecidableEq, Repr

/-- Python's `is` comparison: `None is None`; two objects are the same
object exactly when they have the same object id (payloads of the same
object never differ, so they are not consulted). -/
def pyIs : PyObj → PyObj → Bool
  | PyObj.pynone, PyObj.pynone => true
  | PyObj.obj a _, PyObj.obj b _ => a == b
  | _, _ => false

/-- The payload a Python comparison like `v < 0` would consult. -/
def pyPayload : PyObj → Int
  | PyObj.pynone => 0
  | PyObj.obj _ p => p

/-- Body of a user function wrapped by a `Reactive`: the deep-embedded
shapes of user code exercised by the engine.  `readCheckF k e` models
`v = x(); if v < 0: raise e; return v` — a function whose success depends on
a reactive dependency. -/
inductive RFun where
  | constF (v : PyObj)
  | throwF (e : PyObj)
  | readF (k : Nat)
  | readCheckF (k : Nat) (e : PyObj)
deriving DecidableEq, Repr

/-- Body of a user function wrapped by an `Observer`. -/
inductive OFun where
  | noopO
  | readO (k : Nat)
  | setO (k : Nat) (v : PyObj)
deriving DecidableEq, Repr

/-- A user-supplied callable for the `Reactive` constructors, together with
what `inspect.iscoroutinefunction` reports about it. -/
structure RPyFunc where
  code : RFun
  is_async : Bool
deriving DecidableEq, Repr

/-- A user-supplied callable for the `Observer` constructors, together with
what `inspect.iscoroutinefunction` reports about it. -/
structure OPyFunc where
  code : OFun
  is_async : Bool
deriving DecidableEq, Repr

/-- An invalidation callback registered on a `Context`.  The engine only
ever registers closures of these shapes, so they are embedded
symbolically:
* `reactiveOnInvalidate r` is `Reactive._on_invalidate_cb` of reactive `r`;
* `observerOnInvalidate o cid` is the `on_invalidate_cb` closure created in
  `Observer._create_context` for observer `o` over context `cid`;
* `userCb n` is an opaque external callback registered through
  `Observer.on_invalidate`, identified by a tag and logged when fired. -/
inductive Callback where
  | reactiveOnInvalidate (r : Nat)
  | observerOnInvalidate (o : Nat) (cid : Nat)
  | userCb (n : Nat)
deriving DecidableEq, Repr

/-- A flush callback registered on a `Context`: the `on_flush_cb` closure of
`Observer._create_context`, which re-runs observer `o` unless destroyed. -/
inductive FlushCb where
  | observerFlush (o : Nat)
deriving DecidableEq, Repr

/-- Modelled from the spec: `reactcore.Context` (not under `src/`).  A scope
object with a unique id, an invalidated flag, and invalidation / flush
callback lists. -/
structure Context where
  id : Nat
  invalidated : Bool
  invalidate_callbacks : List Callback
  flush_callbacks : List FlushCb
deriving DecidableEq, Repr

/-- `ReactiveVal` state: the stored value and its dependent set (modelled
from the spec for the `Dependents` part: a duplicate-free collection of
context ids). -/
structure ReactiveValSt where
  _value : PyObj
  _dependents : List Nat
deriving DecidableEq, Repr

/-- `Reactive` state, mirroring the fields set in `Reactive.__init__`.
`_value` holds `None` initially and after invalidation, the cached value
after a successful run, and the cached error object when `_error` is set. -/
structure ReactiveSt where
  _func : RFun
  _is_async : Bool
  _dependents : List Nat
  _invalidated : Bool
  _running : Bool
  _most_recent_ctx_id : Int
  _ctx : Option Nat
  _exec_count : Nat
  _value : PyObj
  _error : Bool
deriving DecidableEq, Repr

/-- `Observer` state, mirroring the fields set in `Observer.__init__`.
External invalidate callbacks are identified by tags. -/
structure ObserverSt where
  _func : OFun
  _is_async : Bool
  _invalidate_callbacks : List Nat
  _destroyed : Bool
  _ctx : Option Nat
  _exec_count : Nat
deriving DecidableEq, Repr

/-- The whole engine state: allocated contexts, reactive values, reactives
and observers (each addressed by its index of allocation), the ambient
current context, the pending-flush queue of `reactcore` (modelled from the
spec: context ids, de-duplicated by context identity), and a log of fired
external observer callbacks. -/
structure RState where
  contexts : List Context
  rvals : List ReactiveValSt
  reactives : List ReactiveSt
  observers : List ObserverSt
  current_ctx : Option Nat
  pending_flush : List Nat
  fired_cbs : List Nat
deriving DecidableEq, Repr

/-- The empty engine state. -/
def initState : RState :=
  ⟨[], [], [], [], none, [], []⟩

/-- Update the context at index `cid` in place. -/
def mapCtx (s : RState) (cid : Nat) (f : Context → Context) : RState :=
  { s with contexts := s.contexts.modify f cid }

/-- Update the reactive value at index `k` in place. -/
def mapRVal (s : RState) (k : Nat) (f : ReactiveValSt → ReactiveValSt) : RState :=
  { s with rvals := s.rvals.modify f k }

/-- Update the reactive at index `r` in place. -/
def mapReactive (s : RState) (r : Nat) (f : ReactiveSt → ReactiveSt) : RState :=
  { s with reactives := s.reactives.modify f r }

/-- Update the observer at index `o` in place. -/
def mapObserver (s : RState) (o : Nat) (f : ObserverSt → ObserverSt) : RState :=
  { s with observers := s.observers.modify f o }

/-- Modelled from the spec: allocating a fresh `reactcore.Context` — a new
id, not invalidated, empty callback lists. -/
def newContext (s : RState) : Nat × RState :=
  let cid := s.contexts.length
  (cid, { s with contexts := s.contexts ++ [⟨cid, false, [], []⟩] })

/-- Modelled from the spec: `Context.add_pending_flush` — enqueue this
context on the process-wide pending-flush collection, de-duplicated by
context identity. -/
def addPendingFlush (s : RState) (cid : Nat) : RState :=
  if cid ∈ s.pending_flush then s
  else { s with pending_flush := s.pending_flush ++ [cid] }

/-- Modelled from the spec: `Context.on_flush` — append a flush callback. -/
def ctxOnFlush (s : RState) (cid : Nat) (cb : FlushCb) : RState :=
  mapCtx s cid (fun c => { c with flush_callbacks := c.flush_callbacks ++ [cb] })

mutual

/-- Modelled from the spec: `Context.invalidate` — idempotent; the first
call marks the context invalidated, drains its invalidation-callback list
(moved out and cleared before being invoked), and fires the drained
callbacks in registration order.  `fuel` bounds only the depth of the
nested callback cascade; the marking itself is unconditional. -/
def ctxInvalidate (fuel : Nat) (s : RState) (cid : Nat) : RState :=
  match s.contexts[cid]? with
  | none => s
  | some c =>
    if c.invalidated then s
    else
      let s1 := mapCtx s cid
        (fun c0 => { c0 with invalidated := true, invalidate_callbacks := [] })
      match fuel with
      | 0 => s1
      | fuel' + 1 => runCallbacks fuel' s1 c.invalidate_callbacks
termination_by (fuel, 0, 0)

/-- Fire a list of drained invalidation callbacks in order. -/
def runCallbacks (fuel : Nat) (s : RState) (cbs : List Callback) : RState :=
  match cbs with
  | [] => s
  | cb :: rest => runCallbacks fuel (runCallback fuel s cb) rest
termination_by (fuel, 3, cbs.length)

/-- Fire one invalidation callback.
* `Reactive._on_invalidate_cb`: set the invalidated flag, discard the cached
  value (`self._value = None`), invalidate-then-clear the reactive's own
  dependents, and drop the context reference.
* `Observer._create_context.on_invalidate_cb`: drop the context reference,
  fire the external invalidate callbacks, and enqueue the context for
  flush.
* an external callback: record its tag in the log. -/
def runCallback (fuel : Nat) (s : RState) (cb : Callback) : RState :=
  match cb with
  | Callback.userCb n => { s with fired_cbs := s.fired_cbs ++ [n] }
  | Callback.observerOnInvalidate o cid =>
    match s.observers[o]? with
    | none => s
    | some ob =>
      let s1 := mapObserver s o (fun ob0 => { ob0 with _ctx := none })
      let s2 := { s1 with fired_cbs := s1.fired_cbs ++ ob._invalidate_callbacks }
      addPendingFlush s2 cid
  | Callback.reactiveOnInvalidate r =>
    match s.reactives[r]? with
    | none => s
    | some rc =>
      let s1 := mapReactive s r
        (fun rc0 => { rc0 with _invalidated := true, _value := PyObj.pynone })
      let s2 := invalidateCtxList fuel s1 rc._dependents
      mapReactive s2 r (fun rc0 => { rc0 with _dependents := [], _ctx := none })
termination_by (fuel, 2, 0)

/-- Modelled from the spec: `Dependents.invalidate`'s notification half —
invalidate every member context in order (the clearing of the set is done
by the caller, which owns the set). -/
def invalidateCtxList (fuel : Nat) (s : RState) (cids : List Nat) : RState :=
  match cids with
  | [] => s
  | cid :: rest => invalidateCtxList fuel (ctxInvalidate fuel s cid) rest
termination_by (fuel, 1, cids.length)

end

/-- Add a context id to a dependent set if not already present (a context
appears at most once). -/
def depAdd (deps : List Nat) (cid : Nat) : List Nat :=
  if cid ∈ deps then deps else deps ++ [cid]

/-- Modelled from the spec: `Dependents.register` for a `ReactiveVal` —
adds the currently active context, if any is active; a read outside any
active context is a no-op registration. -/
def rvRegister (s : RState) (k : Nat) : RState :=
  match s.current_ctx with
  | none => s
  | some cid => mapRVal s k (fun rv => { rv with _dependents := depAdd rv._dependents cid })

/-- Allocate a fresh `ReactiveVal` (its `__init__`): the initial value and
an empty dependent set. -/
def newReactiveVal (s : RState) (v : PyObj) : Nat × RState :=
  (s.rvals.length, { s with rvals := s.rvals ++ [⟨v, []⟩] })

/-- `ReactiveVal.get`: register the active context as a dependent, then
return the current value.  (Indices used by scenarios are always
allocated; an unallocated index reads as `None`.) -/
def rvGet (s : RState) (k : Nat) : PyObj × RState :=
  let s1 := rvRegister s k
  (((s1.rvals[k]?).map (fun rv => rv._value)).getD PyObj.pynone, s1)

/-- `ReactiveVal.set`: if the new value `is` the current value, a no-op
returning `False`; otherwise store the new value, invalidate the dependent
set (notify every member, then clear it unconditionally) and return
`True`. -/
def rvSet (fuel : Nat) (s : RState) (k : Nat) (v : PyObj) : Bool × RState :=
  match s.rvals[k]? with
  | none => (false, s)
  | some rv =>
    if pyIs rv._value v then (false, s)
    else
      let s1 := mapRVal s k (fun rv0 => { rv0 with _value := v })
      let s2 := invalidateCtxList fuel s1 rv._dependents
      let s3 := mapRVal s2 k (fun rv0 => { rv0 with _dependents := [] })
      (true, s3)

/-- Modelled from the spec: `Dependents.register` for a `Reactive`'s own
dependent set. -/
def reactiveRegister (s : RState) (r : Nat) : RState :=
  match s.current_ctx with
  | none => s
  | some cid =>
    mapReactive s r (fun rc => { rc with _dependents := depAdd rc._dependents cid })

/-- Modelled from the spec: `Context.on_invalidate` — if the context is
already invalidated the callback fires immediately; otherwise it is
appended to the invalidation-callback list. -/
def ctxOnInvalidate (fuel : Nat) (s : RState) (cid : Nat) (cb : Callback) : RState :=
  match s.contexts[cid]? with
  | none => s
  | some c =>
    if c.invalidated then runCallback fuel s cb
    else mapCtx s cid
      (fun c0 => { c0 with invalidate_callbacks := c0.invalidate_callbacks ++ [cb] })

/-- Modelled from the spec: `Context.run` — install this context as the
ambient active context for the duration of the body, then restore the
previous ambient context (on every exit path). -/
def ctxRun (s : RState) (cid : Nat) (body : RState → RState) : RState :=
  let prev := s.current_ctx
  let s1 := { s with current_ctx := some cid }
  let s2 := body s1
  { s2 with current_ctx := prev }

/-- Evaluate the body of a `Reactive` user function: reads go through
`ReactiveVal.get` (registering the ambient context), a raise is an
`Except.error` carrying the exception object. -/
def evalRFun (s : RState) (f : RFun) : Except PyObj PyObj × RState :=
  match f with
  | RFun.constF v => (Except.ok v, s)
  | RFun.throwF e => (Except.error e, s)
  | RFun.readF k =>
    let (v, s1) := rvGet s k
    (Except.ok v, s1)
  | RFun.readCheckF k e =>
    let (v, s1) := rvGet s k
    (if pyPayload v < 0 then Except.error e else Except.ok v, s1)

/-- `Reactive._run_func`: clear the error flag, run the user function, and
capture either the returned value or the thrown error into the cache. -/
def runFunc (s : RState) (r : Nat) : RState :=
  match s.reactives[r]? with
  | none => s
  | some rc =>
    let s1 := mapReactive s r (fun rc0 => { rc0 with _error := false })
    let (res, s2) := evalRFun s1 rc._func
    match res with
    | Except.ok v => mapReactive s2 r (fun rc0 => { rc0 with _value := v })
    | Except.error e =>
      mapReactive s2 r (fun rc0 => { rc0 with _error := true, _value := e })

/-- `Reactive.update_value`: allocate a new context, record it and its id,
register `_on_invalidate_cb` on it, bump the execution counter, clear the
invalidated flag, set the running flag (remembering its prior value), run
`_run_func` inside the context, and restore the running flag. -/
def updateValue (fuel : Nat) (s : RState) (r : Nat) : RState :=
  match s.reactives[r]? with
  | none => s
  | some rc =>
    let (cid, s1) := newContext s
    let s2 := mapReactive s1 r
      (fun rc0 => { rc0 with _ctx := some cid, _most_recent_ctx_id := (cid : Int) })
    let s3 := ctxOnInvalidate fuel s2 cid (Callback.reactiveOnInvalidate r)
    let s4 := mapReactive s3 r
      (fun rc0 => { rc0 with _exec_count := rc0._exec_count + 1, _invalidated := false })
    let wasRunning := rc._running
    let s5 := mapReactive s4 r (fun rc0 => { rc0 with _running := true })
    let s6 := ctxRun s5 cid (fun st => runFunc st r)
    mapReactive s6 r (fun rc0 => { rc0 with _running := wasRunning })

/-- `Reactive.get_value`: register the caller's active context as a
dependent, recompute if the invalidated or running flag is set, then
re-raise the cached error or return the cached value. -/
def getValue (fuel : Nat) (s : RState) (r : Nat) : Except PyObj PyObj × RState :=
  let s1 := reactiveRegister s r
  let s2 :=
    match s1.reactives[r]? with
    | none => s1
    | some rc => if rc._invalidated || rc._running then updateValue fuel s1 r else s1
  match s2.reactives[r]? with
  | none => (Except.ok PyObj.pynone, s2)
  | some rc =>
    if rc._error then (Except.error rc._value, s2) else (Except.ok rc._value, s2)

/-- `Reactive.__init__`: rejects a coroutine function with a `TypeError`
before any state is initialised; otherwise allocates the reactive with its
documented initial field values (`invalidated` true, counter zero). -/
def reactiveInit (s : RState) (f : RPyFunc) : Except String (Nat × RState) :=
  if f.is_async then Except.error "Reactive requires a non-async function"
  else
    Except.ok (s.reactives.length,
      { s with reactives := s.reactives ++
          [⟨f.code, false, [], true, false, -1, none, 0, PyObj.pynone, false⟩] })

/-- `ReactiveAsync.__init__`: rejects a non-coroutine function with a
`TypeError`; otherwise initialises the base class with a placeholder
synchronous function (`lambda: None`) and then replaces it with the async
function and marks the instance async. -/
def reactiveAsyncInit (s : RState) (f : RPyFunc) : Except String (Nat × RState) :=
  if !f.is_async then Except.error "ReactiveAsync requires an async function"
  else
    match reactiveInit s ⟨RFun.constF PyObj.pynone, false⟩ with
    | Except.error e => Except.error e
    | Except.ok (r, s1) =>
      Except.ok (r, mapReactive s1 r
        (fun rc => { rc with _func := f.code, _is_async := true }))

/-- Evaluate the body of an `Observer` user function. -/
def evalOFun (fuel : Nat) (s : RState) (f : OFun) : RState :=
  match f with
  | OFun.noopO => s
  | OFun.readO k => (rvGet s k).2
  | OFun.setO k v => (rvSet fuel s k v).2

/-- `Observer._create_context`: allocate a fresh context, store it in the
observer, and register the `on_invalidate_cb` and `on_flush_cb` closures on
it. -/
def observerCreateContext (fuel : Nat) (s : RState) (o : Nat) : Nat × RState :=
  let (cid, s1) := newContext s
  let s2 := mapObserver s1 o (fun ob => { ob with _ctx := some cid })
  let s3 := ctxOnInvalidate fuel s2 cid (Callback.observerOnInvalidate o cid)
  let s4 := ctxOnFlush s3 cid (FlushCb.observerFlush o)
  (cid, s4)

/-- `Observer.run`: create a new context, bump the execution counter, and
run the user function inside the context. -/
def observerRun (fuel : Nat) (s : RState) (o : Nat) : RState :=
  match s.observers[o]? with
  | none => s
  | some ob =>
    let (cid, s1) := observerCreateContext fuel s o
    let s2 := mapObserver s1 o (fun ob0 => { ob0 with _exec_count := ob0._exec_count + 1 })
    ctxRun s2 cid (fun st => evalOFun fuel st ob._func)

/-- `Observer.__init__`: rejects a coroutine function with a `TypeError`
before any state is initialised; otherwise allocates the observer, creates
its first context, and immediately invalidates it so the first run is
deferred to the next flush.  (No ambient session is modelled — the
`SessionScope` collaborator is out of scope and `get_current_session()`
returns `None`.) -/
def observerInit (fuel : Nat) (s : RState) (f : OPyFunc) : Except String (Nat × RState) :=
  if f.is_async then Except.error "Observer requires a non-async function"
  else
    let o := s.observers.length
    let s1 := { s with observers := s.observers ++ [⟨f.code, false, [], false, none, 0⟩] }
    let (cid, s2) := observerCreateContext fuel s1 o
    Except.ok (o, ctxInvalidate fuel s2 cid)

/-- `ObserverAsync.__init__`: rejects a non-coroutine function with a
`TypeError`; otherwise initialises the base class with a placeholder
synchronous function (`lambda: None`) — which creates and invalidates the
first context — and then replaces the function and marks the instance
async. -/
def observerAsyncInit (fuel : Nat) (s : RState) (f : OPyFunc) : Except String (Nat × RState) :=
  if !f.is_async then Except.error "ObserverAsync requires an async function"
  else
    match observerInit fuel s ⟨OFun.noopO, false⟩ with
    | Except.error e => Except.error e
    | Except.ok (o, s1) =>
      Except.ok (o, mapObserver s1 o
        (fun ob => { ob with _func := f.code, _is_async := true }))

/-- `Observer.on_invalidate`: append an external callback (a tag). -/
def observerOnInvalidate (s : RState) (o : Nat) (n : Nat) : RState :=
  mapObserver s o
    (fun ob => { ob with _invalidate_callbacks := ob._invalidate_callbacks ++ [n] })

/-- `Observer.destroy`: set the destroyed flag and invalidate the current
context, if any. -/
def observerDestroy (fuel : Nat) (s : RState) (o : Nat) : RState :=
  match s.observers[o]? with
  | none => s
  | some ob =>
    let s1 := mapObserver s o (fun ob0 => { ob0 with _destroyed := true })
    match ob._ctx with
    | none => s1
    | some cid => ctxInvalidate fuel s1 cid

/-- Fire one flush callback: `Observer._create_context.on_flush_cb` skips
the re-run when the observer has been destroyed. -/
def runFlushCb (fuel : Nat) (s : RState) (cb : FlushCb) : RState :=
  match cb with
  | FlushCb.observerFlush o =>
    match s.observers[o]? with
    | none => s
    | some ob => if ob._destroyed then s else observerRun fuel s o

/-- Fire the flush callbacks of one dequeued context, in order. -/
def runFlushCbs (fuel : Nat) (s : RState) (cbs : List FlushCb) : RState :=
  match cbs with
  | [] => s
  | cb :: rest => runFlushCbs fuel (runFlushCb fuel s cb) rest

/-- Modelled from the spec: `reactcore.flush` — while the pending set is
non-empty, remove one enqueued context and run its flush callbacks; the
loop continues until the set is empty (fixpoint), with `fuel` bounding the
number of iterations (user-level always-invalidating cycles do not
terminate and are out of the engine's contract). -/
def flush (fuel : Nat) (s : RState) : RState :=
  match fuel with
  | 0 => s
  | fuel' + 1 =>
    match s.pending_flush with
    | [] => s
    | cid :: rest =>
      let s1 := { s with pending_flush := rest }
      let s2 := runFlushCbs fuel' s1
        (((s1.contexts[cid]?).map (fun c => c.flush_callbacks)).getD [])
      flush fuel' s2

/-! ### `ReactiveValues` (`src/shiny/reactives.py` lines 37-59)

The mapping from keys to `ReactiveVal`s, with the values allocated in the
engine state and addressed by index. -/

/-- The key-to-`ReactiveVal` map of a `ReactiveValues` collection. -/
def RValuesMap := List (String × Nat)
deriving DecidableEq, Repr

/-- Look a key up in the map. -/
def rvaluesLookup (m : List (String × Nat)) (k : String) : Option Nat :=
  (m.find? (fun kv => kv.1 == k)).map (fun kv => kv.2)

/-- `ReactiveValues.__setitem__`: an existing key routes through that
`ReactiveVal`'s one-argument call, i.e. `set`; a new key allocates a fresh
`ReactiveVal` holding the value. -/
def rvaluesSetitem (fuel : Nat) (s : RState) (m : List (String × Nat))
    (k : String) (v : PyObj) : List (String × Nat) × RState :=
  match rvaluesLookup m k with
  | some i => (m, (rvSet fuel s i v).2)
  | none =>
    let (i, s1) := newReactiveVal s v
    (m ++ [(k, i)], s1)

/-- `ReactiveValues.__getitem__`: auto-populate the key with a
`ReactiveVal(None)` if it has not been set yet, then perform that
`ReactiveVal`'s zero-argument call, i.e. a tracked `get`. -/
def rvaluesGetitem (s : RState) (m : List (String × Nat)) (k : String) :
    PyObj × List (String × Nat) × RState :=
  match rvaluesLookup m k with
  | some i =>
    let (v, s1) := rvGet s i
    (v, m, s1)
  | none =>
    let (i, s1) := newReactiveVal s PyObj.pynone
    let (v, s2) := rvGet s1 i
    (v, m ++ [(k, i)], s2)

/-! ## Invariants of the invalidation cascade -/

/-- The destroyed flag and execution counter of an observer: the two fields
no invalidation cascade may touch. -/
def obsSig (s : RState) (o : Nat) : Option (Bool × Nat) :=
  (s.observers[o]?).map (fun ob => (ob._destroyed, ob._exec_count))

/-- What an invalidation cascade may do to the state, as observed by the
reactive values, the observers' destroyed/exec-count signature, and the
contexts: reactive values are untouched, signatures are untouched, and each
context is either untouched or marked invalidated with a drained callback
list. -/
abbrev cascadePreserves (s s' : RState) : Prop :=
  s'.rvals = s.rvals ∧
  (∀ o, obsSig s' o = obsSig s o) ∧
  s'.contexts.length = s.contexts.length ∧
  (∀ cid : Nat, s'.contexts[cid]? = s.contexts[cid]? ∨
    ∃ c : Context, s.contexts[cid]? = some c ∧
      s'.contexts[cid]? = some { c with invalidated := true, invalidate_callbacks := [] })

lemma cascadePreserves_refl (s : RState) : cascadePreserves s s :=
  ⟨rfl, fun _ => rfl, rfl, fun _ => Or.inl rfl⟩

lemma cascadePreserves_trans {s1 s2 s3 : RState}
    (h12 : cascadePreserves s1 s2) (h23 : cascadePreserves s2 s3) :
    cascadePreserves s1 s3 := by
  obtain ⟨hr12, ho12, hl12, hc12⟩ := h12
  obtain ⟨hr23, ho23, hl23, hc23⟩ := h23
  refine ⟨hr23.trans hr12, fun o => (ho23 o).trans (ho12 o), hl23.trans hl12, ?_⟩
  intro cid
  rcases hc23 cid with h2 | ⟨c2, hc2, hc2'⟩
  · rcases hc12 cid with h1 | ⟨c1, hc1, hc1'⟩
    · exact Or.inl (h2.trans h1)
    · exact Or.inr ⟨c1, hc1, h2.trans hc1'⟩
  · rcases hc12 cid with h1 | ⟨c1, hc1, hc1'⟩
    · rw [h1] at hc2
      exact Or.inr ⟨c2, hc2, hc2'⟩
    · rw [hc1'] at hc2
      obtain hcc := Option.some.inj hc2
      exact Or.inr ⟨c1, hc1, by rw [hc2', ← hcc]⟩

/-- A cascade never un-invalidates a context. -/
lemma cascadePreserves_invalidated {s s' : RState} (h : cascadePreserves s s')
    {cid : Nat} {c : Context} (hc : s.contexts[cid]? = some c)
    (hinv : c.invalidated = true) :
    ∃ c', s'.contexts[cid]? = some c' ∧ c'.invalidated = true := by
  rcases h.2.2.2 cid with h1 | ⟨c1, hc1, hc1'⟩
  · exact ⟨c, h1.trans hc, hinv⟩
  · exact ⟨_, hc1', rfl⟩

/-- Reading the modified entry of a list. -/
lemma getElem?_modify_self {α : Type} (l : List α) (i : Nat) (f : α → α) (a : α)
    (h : l[i]? = some a) : (l.modify f i)[i]? = some (f a) := by
  rw [List.getElem?_modify_eq]
  rw [h]
  rfl

lemma cascadePreserves_addPendingFlush (s : RState) (cid : Nat) :
    cascadePreserves s (addPendingFlush s cid) := by
  unfold addPendingFlush
  split
  · exact cascadePreserves_refl s
  · exact ⟨rfl, fun _ => rfl, rfl, fun _ => Or.inl rfl⟩

lemma obsSig_modify (s : RState) (o i : Nat) (f : ObserverSt → ObserverSt)
    (hf : ∀ ob, (f ob)._destroyed = ob._destroyed ∧ (f ob)._exec_count = ob._exec_count) :
    obsSig (mapObserver s o f) i = obsSig s i := by
  unfold obsSig mapObserver
  dsimp only
  rw [List.getElem?_modify]
  cases s.observers[i]? with
  | none => rfl
  | some ob =>
    by_cases h : o = i <;> simp [h, (hf ob).1, (hf ob).2]

lemma cascadePreserves_mapObserver_ctx (s : RState) (o : Nat) :
    cascadePreserves s (mapObserver s o (fun ob0 => { ob0 with _ctx := none })) :=
  ⟨rfl, fun i => obsSig_modify s o i _ (fun _ => ⟨rfl, rfl⟩), rfl, fun _ => Or.inl rfl⟩

lemma cascadePreserves_fired_append (s : RState) (l : List Nat) :
    cascadePreserves s { s with fired_cbs := s.fired_cbs ++ l } :=
  ⟨rfl, fun _ => rfl, rfl, fun _ => Or.inl rfl⟩

mutual

theorem ctxInvalidate_preserves (fuel : Nat) (s : RState) (cid : Nat) :
    cascadePreserves s (ctxInvalidate fuel s cid) := by
  unfold ctxInvalidate
  split
  · exact cascadePreserves_refl s
  · next c hc =>
    split
    · exact cascadePreserves_refl s
    · next hinv =>
      have h1 : cascadePreserves s (mapCtx s cid
          (fun c0 => { c0 with invalidated := true, invalidate_callbacks := [] })) := by
        refine ⟨rfl, fun _ => rfl, List.length_modify _ _ _, ?_⟩
        intro cid'
        by_cases heq : cid = cid'
        · subst heq
          exact Or.inr ⟨c, hc, getElem?_modify_self _ _ _ _ hc⟩
        · exact Or.inl (List.getElem?_modify_ne _ _ heq)
      cases fuel with
      | zero => exact h1
      | succ fuel' =>
        exact cascadePreserves_trans h1 (runCallbacks_preserves fuel' _ _)
termination_by (fuel, 0, 0)

theorem runCallbacks_preserves (fuel : Nat) (s : RState) (cbs : List Callback) :
    cascadePreserves s (runCallbacks fuel s cbs) := by
  unfold runCallbacks
  split
  · exact cascadePreserves_refl s
  · exact cascadePreserves_trans (runCallback_preserves fuel s _)
      (runCallbacks_preserves fuel _ _)
termination_by (fuel, 3, cbs.length)

theorem runCallback_preserves (fuel : Nat) (s : RState) (cb : Callback) :
    cascadePreserves s (runCallback fuel s cb) := by
  unfold runCallback
  split
  · exact ⟨rfl, fun _ => rfl, rfl, fun _ => Or.inl rfl⟩
  · split
    · exact cascadePreserves_refl s
    · next ob hob =>
      exact cascadePreserves_trans
        (cascadePreserves_trans (cascadePreserves_mapObserver_ctx s _)
          (cascadePreserves_fired_append _ _))
        (cascadePreserves_addPendingFlush _ _)
  · next r =>
    split
    · exact cascadePreserves_refl s
    · next rc hrc =>
      have h1 : cascadePreserves s (mapReactive s r
          (fun rc0 => { rc0 with _invalidated := true, _value := PyObj.pynone })) :=
        ⟨rfl, fun _ => rfl, rfl, fun _ => Or.inl rfl⟩
      have h2 := invalidateCtxList_preserves fuel
        (mapReactive s r (fun rc0 => { rc0 with _invalidated := true, _value := PyObj.pynone }))
        rc._dependents
      have h3 : ∀ (st : RState) (r' : Nat),
          cascadePreserves st (mapReactive st r'
            (fun rc0 => { rc0 with _dependents := [], _ctx := none })) :=
        fun st r' => ⟨rfl, fun _ => rfl, rfl, fun _ => Or.inl rfl⟩
      exact cascadePreserves_trans (cascadePreserves_trans h1 h2) (h3 _ _)
termination_by (fuel, 2, 0)

theorem invalidateCtxList_preserves (fuel : Nat) (s : RState) (cids : List Nat) :
    cascadePreserves s (invalidateCtxList fuel s cids) := by
  unfold invalidateCtxList
  split
  · exact cascadePreserves_refl s
  · exact cascadePreserves_trans (ctxInvalidate_preserves fuel s _)
      (invalidateCtxList_preserves fuel _ _)
termination_by (fuel, 1, cids.length)

end

/-- `Context.invalidate` marks an allocated context invalidated (at any
fuel: only the nested callback cascade is fuel-bounded). -/
lemma ctxInvalidate_marks (fuel : Nat) (s : RState) (cid : Nat) (c : Context)
    (hc : s.contexts[cid]? = some c) :
    ∃ c', (ctxInvalidate fuel s cid).contexts[cid]? = some c' ∧
      c'.invalidated = true := by
  unfold ctxInvalidate
  rw [hc]
  by_cases hinv : c.invalidated
  · simp only [hinv, if_true]
    exact ⟨c, hc, hinv⟩
  · simp only [hinv, Bool.false_eq_true, if_false]
    have hmark : (mapCtx s cid
        (fun c0 => { c0 with invalidated := true, invalidate_callbacks := [] })
        ).contexts[cid]? =
        some { c with invalidated := true, invalidate_callbacks := [] } :=
      getElem?_modify_self _ _ _ _ hc
    cases fuel with
    | zero => exact ⟨_, hmark, rfl⟩
    | succ fuel' =>
      exact cascadePreserves_invalidated (runCallbacks_preserves fuel' _ _) hmark rfl

/-- `Dependents.invalidate`'s notification marks every allocated member
context invalidated. -/
lemma invalidateCtxList_marks (fuel : Nat) (s : RState) (cids : List Nat) :
    ∀ cid ∈ cids, cid < s.contexts.length →
      ∃ c', (invalidateCtxList fuel s cids).contexts[cid]? = some c' ∧
        c'.invalidated = true := by
  induction cids generalizing s with
  | nil => intro cid h; exact absurd h (by simp)
  | cons c0 rest ih =>
    intro cid hmem hlt
    rcases List.mem_cons.mp hmem with heq | hmem'
    · subst heq
      obtain ⟨c, hc⟩ : ∃ c, s.contexts[cid]? = some c :=
        ⟨_, List.getElem?_eq_getElem hlt⟩
      obtain ⟨c', hc', hinv'⟩ := ctxInvalidate_marks fuel s cid c hc
      unfold invalidateCtxList
      exact cascadePreserves_invalidated
        (invalidateCtxList_preserves fuel _ rest) hc' hinv'
    · unfold invalidateCtxList
      have hlen : (ctxInvalidate fuel s c0).contexts.length = s.contexts.length :=
        (ctxInvalidate_preserves fuel s c0).2.2.1
      exact ih (ctxInvalidate fuel s c0) cid hmem' (hlen ▸ hlt)

/-! ## The recompute path of `Reactive` -/

/-- The value a read of `ReactiveVal` `k` yields (registration does not
change any stored value). -/
def valueAt (s : RState) (k : Nat) : PyObj :=
  ((s.rvals[k]?).map (fun rv => rv._value)).getD PyObj.pynone

/-- The outcome of running a `Reactive` user function against the current
reactive values: the returned value or the raised error. -/
def rfunResult (s : RState) (f : RFun) : Except PyObj PyObj :=
  match f with
  | RFun.constF v => Except.ok v
  | RFun.throwF e => Except.error e
  | RFun.readF k => Except.ok (valueAt s k)
  | RFun.readCheckF k e =>
    if pyPayload (valueAt s k) < 0 then Except.error e else Except.ok (valueAt s k)

/-- Whether an outcome is an error (the `_error` flag `_run_func` leaves). -/
def resErr : Except PyObj PyObj → Bool
  | Except.ok _ => false
  | Except.error _ => true

/-- The object an outcome caches (the `_value` field `_run_func` leaves). -/
def resVal : Except PyObj PyObj → PyObj
  | Except.ok v => v
  | Except.error e => e

lemma rvRegister_rvals_values (s : RState) (k i : Nat) :
    ((rvRegister s k).rvals[i]?).map (fun rv => rv._value) =
      (s.rvals[i]?).map (fun rv => rv._value) := by
  unfold rvRegister
  cases s.current_ctx with
  | none => rfl
  | some cid =>
    unfold mapRVal
    dsimp only
    rw [List.getElem?_modify]
    cases s.rvals[i]? with
    | none => rfl
    | some rv => by_cases h : k = i <;> simp [h]

lemma rvGet_fst (s : RState) (k : Nat) : (rvGet s k).1 = valueAt s k := by
  unfold rvGet valueAt
  dsimp only
  rw [rvRegister_rvals_values]

lemma evalRFun_fst (s : RState) (f : RFun) : (evalRFun s f).1 = rfunResult s f := by
  cases f <;> simp only [evalRFun, rfunResult, rvGet_fst]

lemma rvRegister_reactives (s : RState) (k : Nat) :
    (rvRegister s k).reactives = s.reactives := by
  unfold rvRegister
  cases s.current_ctx <;> rfl

lemma evalRFun_snd_reactives (s : RState) (f : RFun) :
    (evalRFun s f).2.reactives = s.reactives := by
  cases f <;> simp only [evalRFun, rvGet] <;> exact rvRegister_reactives s _

lemma evalRFun_rvals_values (s : RState) (f : RFun) :
    ∀ i : Nat, ((evalRFun s f).2.rvals[i]?).map (fun rv => rv._value) =
      (s.rvals[i]?).map (fun rv => rv._value) := by
  intro i
  cases f <;> simp only [evalRFun, rvGet] <;>
    first
      | rfl
      | exact rvRegister_rvals_values s _ i

lemma mapReactive_entry (s : RState) (r : Nat) (f : ReactiveSt → ReactiveSt)
    (rc : ReactiveSt) (h : s.reactives[r]? = some rc) :
    (mapReactive s r f).reactives[r]? = some (f rc) :=
  getElem?_modify_self _ _ _ _ h

/-- `Context.on_invalidate` on a context that is not yet invalidated
appends the callback. -/
lemma ctxOnInvalidate_fresh (fuel : Nat) (s : RState) (cid : Nat) (cb : Callback)
    (c : Context) (h : s.contexts[cid]? = some c) (hinv : c.invalidated = false) :
    ctxOnInvalidate fuel s cid cb = mapCtx s cid
      (fun c0 => { c0 with invalidate_callbacks := c0.invalidate_callbacks ++ [cb] }) := by
  unfold ctxOnInvalidate
  rw [h]
  simp [hinv]

/-- The outcome of a user function is unchanged by state changes that
preserve the stored reactive values. -/
lemma rfunResult_rvals_congr (s s2 : RState) (f : RFun)
    (h : ∀ i : Nat, (s2.rvals[i]?).map (fun rv => rv._value) =
      (s.rvals[i]?).map (fun rv => rv._value)) :
    rfunResult s2 f = rfunResult s f := by
  cases f <;> simp only [rfunResult, valueAt, h]

/-- `Reactive._run_func` caches the outcome of the user function in the
`_value`/`_error` fields of the reactive\'s entry. -/
lemma runFunc_entry (s : RState) (r : Nat) (rc : ReactiveSt)
    (h : s.reactives[r]? = some rc) :
    (runFunc s r).reactives[r]? = some
      { rc with
        _value := resVal (rfunResult s rc._func),
        _error := resErr (rfunResult s rc._func) } := by
  unfold runFunc
  rw [h]
  dsimp only
  have h1 : (mapReactive s r (fun rc0 => { rc0 with _error := false })).reactives[r]? =
      some { rc with _error := false } :=
    mapReactive_entry s r _ rc h
  have hfst : (evalRFun (mapReactive s r (fun rc0 => { rc0 with _error := false }))
      rc._func).1 = rfunResult s rc._func := by
    rw [evalRFun_fst]
    exact rfunResult_rvals_congr s _ rc._func (fun i => rfl)
  cases hev : evalRFun (mapReactive s r (fun rc0 => { rc0 with _error := false }))
      rc._func with
  | mk res s7 =>
    rw [hev] at hfst
    dsimp only at hfst
    have h7 : s7.reactives[r]? = some { rc with _error := false } := by
      have hre := evalRFun_snd_reactives
        (mapReactive s r (fun rc0 => { rc0 with _error := false })) rc._func
      rw [hev] at hre
      dsimp only at hre
      rw [hre]
      exact h1
    dsimp only
    cases res with
    | ok v =>
      have h8 := mapReactive_entry s7 r (fun rc0 => { rc0 with _value := v }) _ h7
      rw [h8, ← hfst]
      rfl
    | error e =>
      have h8 := mapReactive_entry s7 r
        (fun rc0 => { rc0 with _error := true, _value := e }) _ h7
      rw [h8, ← hfst]
      rfl

/-- What one recompute does to the reactive\'s own entry: fresh context
recorded, counter bumped, invalidated flag cleared, running flag restored,
and the outcome of the user function (value or error) cached. -/
lemma updateValue_entry (fuel : Nat) (s : RState) (r : Nat) (rc : ReactiveSt)
    (h : s.reactives[r]? = some rc) :
    (updateValue fuel s r).reactives[r]? = some
      { rc with
        _ctx := some s.contexts.length,
        _most_recent_ctx_id := (s.contexts.length : Int),
        _exec_count := rc._exec_count + 1,
        _invalidated := false,
        _value := resVal (rfunResult s rc._func),
        _error := resErr (rfunResult s rc._func) } := by
  unfold updateValue
  rw [h]
  dsimp only [newContext]
  have hctx : (mapReactive
      { s with contexts := s.contexts ++ [⟨s.contexts.length, false, [], []⟩] } r
      (fun rc0 => { rc0 with
        _ctx := some s.contexts.length,
        _most_recent_ctx_id := (s.contexts.length : Int) })
      ).contexts[s.contexts.length]? =
      some ⟨s.contexts.length, false, [], []⟩ := by
    show (s.contexts ++ [(⟨s.contexts.length, false, [], []⟩ : Context)])[s.contexts.length]? = _
    exact List.getElem?_concat_length _ _
  rw [ctxOnInvalidate_fresh fuel _ _ _ _ hctx rfl]
  dsimp only [ctxRun]
  have hB : (mapReactive
      { s with contexts := s.contexts ++ [⟨s.contexts.length, false, [], []⟩] } r
      (fun rc0 => { rc0 with
        _ctx := some s.contexts.length,
        _most_recent_ctx_id := (s.contexts.length : Int) })).reactives[r]? =
      some { rc with
        _ctx := some s.contexts.length,
        _most_recent_ctx_id := (s.contexts.length : Int) } :=
    mapReactive_entry _ r _ rc h
  have hE : (mapReactive (mapReactive (mapCtx (mapReactive
      { s with contexts := s.contexts ++ [⟨s.contexts.length, false, [], []⟩] } r
      (fun rc0 => { rc0 with
        _ctx := some s.contexts.length,
        _most_recent_ctx_id := (s.contexts.length : Int) }))
      s.contexts.length
      (fun c0 => { c0 with invalidate_callbacks :=
        c0.invalidate_callbacks ++ [Callback.reactiveOnInvalidate r] })) r
      (fun rc0 => { rc0 with _exec_count := rc0._exec_count + 1, _invalidated := false })) r
      (fun rc0 => { rc0 with _running := true })).reactives[r]? =
      some { rc with
        _ctx := some s.contexts.length,
        _most_recent_ctx_id := (s.contexts.length : Int),
        _exec_count := rc._exec_count + 1,
        _invalidated := false,
        _running := true } := by
    exact mapReactive_entry _ r _ _ (mapReactive_entry _ r _ _ hB)
  have hrun := runFunc_entry _ r _ (show
    ({ (mapReactive (mapReactive (mapCtx (mapReactive
      { s with contexts := s.contexts ++ [⟨s.contexts.length, false, [], []⟩] } r
      (fun rc0 => { rc0 with
        _ctx := some s.contexts.length,
        _most_recent_ctx_id := (s.contexts.length : Int) }))
      s.contexts.length
      (fun c0 => { c0 with invalidate_callbacks :=
        c0.invalidate_callbacks ++ [Callback.reactiveOnInvalidate r] })) r
      (fun rc0 => { rc0 with _exec_count := rc0._exec_count + 1, _invalidated := false })) r
      (fun rc0 => { rc0 with _running := true }))
      with current_ctx := some s.contexts.length } : RState).reactives[r]? =
      some { rc with
        _ctx := some s.contexts.length,
        _most_recent_ctx_id := (s.contexts.length : Int),
        _exec_count := rc._exec_count + 1,
        _invalidated := false,
        _running := true } from hE)
  have hcong : rfunResult
      ({ (mapReactive (mapReactive (mapCtx (mapReactive
        { s with contexts := s.contexts ++ [⟨s.contexts.length, false, [], []⟩] } r
        (fun rc0 => { rc0 with
          _ctx := some s.contexts.length,
          _most_recent_ctx_id := (s.contexts.length : Int) }))
        s.contexts.length
        (fun c0 => { c0 with invalidate_callbacks :=
          c0.invalidate_callbacks ++ [Callback.reactiveOnInvalidate r] })) r
        (fun rc0 => { rc0 with _exec_count := rc0._exec_count + 1, _invalidated := false })) r
        (fun rc0 => { rc0 with _running := true }))
        with current_ctx := some s.contexts.length } : RState)
      (({ rc with
        _ctx := some s.contexts.length,
        _most_recent_ctx_id := (s.contexts.length : Int),
        _exec_count := rc._exec_count + 1,
        _invalidated := false,
        _running := true } : ReactiveSt)._func) = rfunResult s rc._func := by
    exact rfunResult_rvals_congr s _ rc._func (fun i => rfl)
  rw [hcong] at hrun
  exact mapReactive_entry _ r
    (fun rc0 => { rc0 with _running := rc._running }) _ hrun

/-- The dependent set after a `Dependents.register` under an ambient
context. -/
def regDeps (cur : Option Nat) (deps : List Nat) : List Nat :=
  match cur with
  | none => deps
  | some cid => depAdd deps cid

lemma reactiveRegister_rvals (s : RState) (r : Nat) :
    (reactiveRegister s r).rvals = s.rvals := by
  unfold reactiveRegister
  cases s.current_ctx <;> rfl

lemma reactiveRegister_contexts (s : RState) (r : Nat) :
    (reactiveRegister s r).contexts = s.contexts := by
  unfold reactiveRegister
  cases s.current_ctx <;> rfl

lemma reactiveRegister_entry (s : RState) (r : Nat) (rc : ReactiveSt)
    (h : s.reactives[r]? = some rc) :
    (reactiveRegister s r).reactives[r]? =
      some { rc with _dependents := regDeps s.current_ctx rc._dependents } := by
  unfold reactiveRegister regDeps
  cases s.current_ctx with
  | none => exact h
  | some cid => exact mapReactive_entry s r _ rc h

/-- `Reactive.get_value` when the invalidated or running flag is set:
recompute first, then serve the freshly cached outcome. -/
lemma getValue_update_spec (fuel : Nat) (s : RState) (r : Nat) (rc : ReactiveSt)
    (h : s.reactives[r]? = some rc)
    (hflag : (rc._invalidated || rc._running) = true) :
    (getValue fuel s r).1 =
      (if resErr (rfunResult s rc._func) then
        Except.error (resVal (rfunResult s rc._func))
      else Except.ok (resVal (rfunResult s rc._func))) ∧
    (getValue fuel s r).2.reactives[r]? = some
      { rc with
        _dependents := regDeps s.current_ctx rc._dependents,
        _ctx := some s.contexts.length,
        _most_recent_ctx_id := (s.contexts.length : Int),
        _exec_count := rc._exec_count + 1,
        _invalidated := false,
        _value := resVal (rfunResult s rc._func),
        _error := resErr (rfunResult s rc._func) } := by
  have hreg := reactiveRegister_entry s r rc h
  have hupd := updateValue_entry fuel (reactiveRegister s r) r _ hreg
  have hcong : rfunResult (reactiveRegister s r) rc._func = rfunResult s rc._func :=
    rfunResult_rvals_congr s _ rc._func (fun i => by rw [reactiveRegister_rvals])
  have hlen : (reactiveRegister s r).contexts.length = s.contexts.length := by
    rw [reactiveRegister_contexts]
  rw [hcong, hlen] at hupd
  unfold getValue
  simp only [hreg, hflag, if_true, hupd]
  cases hre : resErr (rfunResult s rc._func) <;>
    simp only [hre] at hupd <;>
    simp only [hre, Bool.false_eq_true, eq_self_iff_true, if_true, if_false] <;>
    (refine ⟨trivial, ?_⟩; exact hupd.trans (by exact rfl))

/-- `Reactive.get_value` when neither flag is set: serve the cached
outcome without recomputing. -/
lemma getValue_cached_spec (fuel : Nat) (s : RState) (r : Nat) (rc : ReactiveSt)
    (h : s.reactives[r]? = some rc)
    (hflag : (rc._invalidated || rc._running) = false) :
    (getValue fuel s r).1 =
      (if rc._error then Except.error rc._value else Except.ok rc._value) ∧
    (getValue fuel s r).2.reactives[r]? =
      some { rc with _dependents := regDeps s.current_ctx rc._dependents } := by
  have hreg := reactiveRegister_entry s r rc h
  unfold getValue
  simp only [hreg, hflag, Bool.false_eq_true, if_false]
  cases hre : rc._error <;>
    simp only [hre] at hreg <;>
    simp only [hre, Bool.false_eq_true, eq_self_iff_true, if_true, if_false] <;>
    (refine ⟨trivial, ?_⟩; exact hreg.trans (by exact rfl))

/-! ## Theorems -/

/-- `'.'` is not a word character. -/
lemma pyWordChar_dot : pyWordChar '.' = false := by decide

/-- `'\n'` is not a word character. -/
lemma pyWordChar_newline : pyWordChar '\n' = false := by decide

/-- Declarative characterisation of `wordsThenDollar`: the remaining
characters split into further word characters and an optional single
trailing newline. -/
lemma wordsThenDollar_iff (l : List Char) :
    wordsThenDollar l = true ↔
      ∃ w t, l = w ++ t ∧ (∀ c ∈ w, pyWordChar c = true) ∧ (t = [] ∨ t = ['\n']) := by
  induction l with
  | nil =>
    constructor
    · intro _
      exact ⟨[], [], by simp, by simp, Or.inl rfl⟩
    · intro _
      rfl
  | cons c rest ih =>
    cases rest with
    | nil =>
      simp only [wordsThenDollar, Bool.or_eq_true, beq_iff_eq]
      constructor
      · intro h
        rcases h with h | h
        · refine ⟨[c], [], by simp, ?_, Or.inl rfl⟩
          intro x hx
          simp only [List.mem_singleton] at hx
          subst hx
          exact h
        · exact ⟨[], ['\n'], by simp [h], by simp, Or.inr rfl⟩
      · rintro ⟨w, t, hl, hw, ht⟩
        cases w with
        | nil =>
          simp only [List.nil_append] at hl
          rcases ht with h1 | h1
          · subst h1; simp at hl
          · subst h1
            simp only [List.cons.injEq] at hl
            exact Or.inr hl.1
        | cons x w' =>
          simp only [List.cons_append, List.cons.injEq] at hl
          obtain ⟨hx, _⟩ := hl
          subst hx
          exact Or.inl (hw c (List.mem_cons_self c w'))
    | cons d rest' =>
      simp only [wordsThenDollar, Bool.and_eq_true]
      constructor
      · rintro ⟨hc, hrest⟩
        obtain ⟨w, t, hl, hw, ht⟩ := ih.mp hrest
        refine ⟨c :: w, t, by simp [hl], ?_, ht⟩
        intro x hx
        rcases List.mem_cons.mp hx with h1 | h2
        · subst h1; exact hc
        · exact hw x h2
      · rintro ⟨w, t, hl, hw, ht⟩
        cases w with
        | nil =>
          simp only [List.nil_append] at hl
          rcases ht with h1 | h1 <;> subst h1 <;> simp at hl
        | cons x w' =>
          simp only [List.cons_append, List.cons.injEq] at hl
          obtain ⟨hx, hrest⟩ := hl
          subst hx
          exact ⟨hw c (List.mem_cons_self c w'),
            ih.mpr ⟨w', t, hrest, fun y hy => hw y (List.mem_cons_of_mem _ hy), ht⟩⟩

/-- Declarative characterisation of `wordPlusDollar`: at least one word
character, then an optional single trailing newline. -/
lemma wordPlusDollar_iff (l : List Char) :
    wordPlusDollar l = true ↔
      ∃ w t, l = w ++ t ∧ w ≠ [] ∧ (∀ c ∈ w, pyWordChar c = true) ∧
        (t = [] ∨ t = ['\n']) := by
  cases l with
  | nil =>
    constructor
    · intro h
      exact absurd h (by simp [wordPlusDollar])
    · rintro ⟨w, t, hl, hw, _, ht⟩
      rcases List.append_eq_nil.mp hl.symm with ⟨h1, _⟩
      exact absurd h1 hw
  | cons c rest =>
    have heq : wordPlusDollar (c :: rest) = (pyWordChar c && wordsThenDollar rest) := by
      cases rest <;> rfl
    rw [heq]
    simp only [Bool.and_eq_true, wordsThenDollar_iff]
    constructor
    · rintro ⟨hc, w, t, hrest, hw, ht⟩
      refine ⟨c :: w, t, by simp [hrest], by simp, ?_, ht⟩
      intro x hx
      rcases List.mem_cons.mp hx with h1 | h2
      · subst h1; exact hc
      · exact hw x h2
    · rintro ⟨w, t, hl, hwne, hw, ht⟩
      cases w with
      | nil => exact absurd rfl hwne
      | cons x w' =>
        simp only [List.cons_append, List.cons.injEq] at hl
        obtain ⟨hx, hrest⟩ := hl
        subst hx
        exact ⟨hw c (List.mem_cons_self c w'),
          w', t, hrest, fun y hy => hw y (List.mem_cons_of_mem _ hy), ht⟩

/-- `ReactiveVal.set` with the stored value itself (`is`-identical) takes
the early-return branch. -/
lemma rvSet_of_same (fuel : Nat) (s : RState) (k : Nat) (rv : ReactiveValSt)
    (x : PyObj) (hk : s.rvals[k]? = some rv) (hsame : pyIs rv._value x = true) :
    rvSet fuel s k x = (false, s) := by
  unfold rvSet
  rw [hk]
  simp only [hsame, if_true]

/-- `ReactiveVal.set` with a distinct object: the value is stored, the
dependents are notified, the set is cleared, and `True` is returned. -/
lemma rvSet_of_distinct (fuel : Nat) (s : RState) (k : Nat) (rv : ReactiveValSt)
    (x : PyObj) (hk : s.rvals[k]? = some rv) (hne : pyIs rv._value x = false) :
    rvSet fuel s k x =
      (true,
        mapRVal
          (invalidateCtxList fuel
            (mapRVal s k (fun rv0 => { rv0 with _value := x })) rv._dependents)
          k (fun rv0 => { rv0 with _dependents := [] })) := by
  unfold rvSet
  rw [hk]
  simp only [hne, Bool.false_eq_true, if_false]

/-- C1: `ReactiveVal.set` is identity-compared — setting the very same
object is a no-op returning `False` that notifies no dependents (the state
is unchanged); setting a distinct object (even one whose payload compares
equal) stores it, returns `True`, clears the dependent set, and marks every
registered dependent context invalidated before returning. -/
theorem claim_C1_reactive_val_set (fuel : Nat) (s : RState) (k : Nat)
    (rv : ReactiveValSt) (x : PyObj)
    (hk : s.rvals[k]? = some rv)
    (hdeps : ∀ cid ∈ rv._dependents, cid < s.contexts.length) :
    (pyIs rv._value x = true → rvSet fuel s k x = (false, s)) ∧
    (pyIs rv._value x = false →
      (rvSet fuel s k x).1 = true ∧
      (rvSet fuel s k x).2.rvals[k]? = some { _value := x, _dependents := [] } ∧
      ∀ cid ∈ rv._dependents,
        ∃ c, (rvSet fuel s k x).2.contexts[cid]? = some c ∧ c.invalidated = true) := by
  constructor
  · intro hsame
    exact rvSet_of_same fuel s k rv x hk hsame
  · intro hne
    rw [rvSet_of_distinct fuel s k rv x hk hne]
    refine ⟨rfl, ?_, ?_⟩
    · show (mapRVal _ k _).rvals[k]? = _
      have h1 : (mapRVal s k (fun rv0 => { rv0 with _value := x })).rvals[k]? =
          some { rv with _value := x } := getElem?_modify_self _ _ _ _ hk
      have h2 : (invalidateCtxList fuel
          (mapRVal s k (fun rv0 => { rv0 with _value := x })) rv._dependents).rvals =
          (mapRVal s k (fun rv0 => { rv0 with _value := x })).rvals :=
        (invalidateCtxList_preserves fuel _ _).1
      have h3 := getElem?_modify_self
        ((invalidateCtxList fuel
          (mapRVal s k (fun rv0 => { rv0 with _value := x })) rv._dependents).rvals)
        k (fun rv0 => { rv0 with _dependents := ([] : List Nat) })
        { rv with _value := x } (by rw [h2]; exact h1)
      exact h3
    · intro cid hmem
      have hlt : cid < (mapRVal s k
          (fun rv0 => { rv0 with _value := x })).contexts.length := hdeps cid hmem
      obtain ⟨c, hc, hinv⟩ := invalidateCtxList_marks fuel
        (mapRVal s k (fun rv0 => { rv0 with _value := x })) rv._dependents cid hmem hlt
      exact ⟨c, hc, hinv⟩

/-- C1 witness: a state with one registered dependent context and a stored
boxed value `obj 1 5`; setting the same object is a no-op returning
`False`, while setting `obj 2 5` — equal payload, distinct identity —
returns `True`, stores it, clears the dependents and invalidates the
dependent context. -/
theorem claim_C1_witness :
    (rvSet 3 ⟨[⟨0, false, [], []⟩], [⟨PyObj.obj 1 5, [0]⟩], [], [], none, [], []⟩
        0 (PyObj.obj 1 5) =
      (false, ⟨[⟨0, false, [], []⟩], [⟨PyObj.obj 1 5, [0]⟩], [], [], none, [], []⟩)) ∧
    ((rvSet 3 ⟨[⟨0, false, [], []⟩], [⟨PyObj.obj 1 5, [0]⟩], [], [], none, [], []⟩
        0 (PyObj.obj 2 5)).1 = true ∧
      (rvSet 3 ⟨[⟨0, false, [], []⟩], [⟨PyObj.obj 1 5, [0]⟩], [], [], none, [], []⟩
        0 (PyObj.obj 2 5)).2.rvals[0]? =
        some { _value := PyObj.obj 2 5, _dependents := [] } ∧
      ∀ cid ∈ [0],
        ∃ c, (rvSet 3 ⟨[⟨0, false, [], []⟩], [⟨PyObj.obj 1 5, [0]⟩], [], [], none, [], []⟩
          0 (PyObj.obj 2 5)).2.contexts[cid]? = some c ∧ c.invalidated = true) :=
  ⟨(claim_C1_reactive_val_set 3
      ⟨[⟨0, false, [], []⟩], [⟨PyObj.obj 1 5, [0]⟩], [], [], none, [], []⟩
      0 ⟨PyObj.obj 1 5, [0]⟩ (PyObj.obj 1 5) rfl (by decide)).1 (by decide),
   (claim_C1_reactive_val_set 3
      ⟨[⟨0, false, [], []⟩], [⟨PyObj.obj 1 5, [0]⟩], [], [], none, [], []⟩
      0 ⟨PyObj.obj 1 5, [0]⟩ (PyObj.obj 2 5) rfl (by decide)).2 (by decide)⟩

/-- C3: a read re-invokes the user function — observable as the execution
counter — exactly when the invalidated or running flag is set at the time
of the read; when neither is set, the read serves the cached outcome and
leaves the counter unchanged (idempotent read). -/
theorem claim_C3_idempotent_read (fuel : Nat) (s : RState) (r : Nat)
    (rc : ReactiveSt) (h : s.reactives[r]? = some rc) :
    ((getValue fuel s r).2.reactives[r]?).map (fun rc0 => rc0._exec_count) =
      some (if rc._invalidated || rc._running then rc._exec_count + 1
        else rc._exec_count) ∧
    ((rc._invalidated || rc._running) = false →
      (getValue fuel s r).1 =
        (if rc._error then Except.error rc._value else Except.ok rc._value)) := by
  cases hflag : rc._invalidated || rc._running with
  | false =>
    obtain ⟨hres, hentry⟩ := getValue_cached_spec fuel s r rc h hflag
    refine ⟨?_, fun _ => hres⟩
    rw [hentry]
    simp
  | true =>
    obtain ⟨hres, hentry⟩ := getValue_update_spec fuel s r rc h hflag
    refine ⟨?_, fun hcontra => absurd hcontra (by simp)⟩
    rw [hentry]
    simp

/-- C3 witness: a cached reactive (neither flag set, counter at 5) read at
a concrete state: the counter stays 5 and the cached value is returned. -/
theorem claim_C3_witness :
    ((getValue 0 ⟨[], [], [⟨RFun.constF (PyObj.obj 3 0), false, [], false, false,
        -1, none, 5, PyObj.obj 3 0, false⟩], [], none, [], []⟩ 0).2.reactives[0]?).map
      (fun rc0 => rc0._exec_count) =
      some (if false || false then 5 + 1 else 5) ∧
    ((false || false) = false →
      (getValue 0 ⟨[], [], [⟨RFun.constF (PyObj.obj 3 0), false, [], false, false,
        -1, none, 5, PyObj.obj 3 0, false⟩], [], none, [], []⟩ 0).1 =
        (if false then Except.error (PyObj.obj 3 0) else Except.ok (PyObj.obj 3 0))) :=
  claim_C3_idempotent_read 0
    ⟨[], [], [⟨RFun.constF (PyObj.obj 3 0), false, [], false, false,
      -1, none, 5, PyObj.obj 3 0, false⟩], [], none, [], []⟩ 0
    ⟨RFun.constF (PyObj.obj 3 0), false, [], false, false, -1, none, 5,
      PyObj.obj 3 0, false⟩ rfl

/-- C4: a freshly constructed `Reactive` starts with the invalidated flag
set and the counter at zero, so the first read performs exactly one
execution, taking the counter to 1 — regardless of any dependencies. -/
theorem claim_C4_first_get (fuel : Nat) (s : RState) (f : RPyFunc)
    (hf : f.is_async = false) :
    reactiveInit s f = Except.ok (s.reactives.length,
      { s with reactives := s.reactives ++
        [⟨f.code, false, [], true, false, -1, none, 0, PyObj.pynone, false⟩] }) ∧
    ({ s with reactives := s.reactives ++
        [⟨f.code, false, [], true, false, -1, none, 0, PyObj.pynone, false⟩] } :
      RState).reactives[s.reactives.length]? =
      some ⟨f.code, false, [], true, false, -1, none, 0, PyObj.pynone, false⟩ ∧
    ((getValue fuel { s with reactives := s.reactives ++
        [⟨f.code, false, [], true, false, -1, none, 0, PyObj.pynone, false⟩] }
        s.reactives.length).2.reactives[s.reactives.length]?).map
      (fun rc0 => rc0._exec_count) = some 1 := by
  have hentry : ({ s with reactives := s.reactives ++
      [⟨f.code, false, [], true, false, -1, none, 0, PyObj.pynone, false⟩] } :
      RState).reactives[s.reactives.length]? =
      some ⟨f.code, false, [], true, false, -1, none, 0, PyObj.pynone, false⟩ := by
    show (s.reactives ++ [(⟨f.code, false, [], true, false, -1, none, 0,
      PyObj.pynone, false⟩ : ReactiveSt)])[s.reactives.length]? = _
    exact List.getElem?_concat_length _ _
  refine ⟨?_, hentry, ?_⟩
  · unfold reactiveInit
    rw [hf]
    rfl
  · obtain ⟨hres, hen⟩ := getValue_update_spec fuel _ _ _ hentry rfl
    rw [hen]
    rfl

/-- C4 witness: constructing a `Reactive` from a synchronous constant
function in the empty state and reading it once takes the counter to 1. -/
theorem claim_C4_witness :
    reactiveInit initState ⟨RFun.constF PyObj.pynone, false⟩ = Except.ok (0,
      { initState with reactives := [⟨RFun.constF PyObj.pynone, false, [], true,
        false, -1, none, 0, PyObj.pynone, false⟩] }) ∧
    ({ initState with reactives := [⟨RFun.constF PyObj.pynone, false, [], true,
        false, -1, none, 0, PyObj.pynone, false⟩] } : RState).reactives[0]? =
      some ⟨RFun.constF PyObj.pynone, false, [], true, false, -1, none, 0,
        PyObj.pynone, false⟩ ∧
    ((getValue 0 { initState with reactives := [⟨RFun.constF PyObj.pynone, false,
        [], true, false, -1, none, 0, PyObj.pynone, false⟩] } 0).2.reactives[0]?).map
      (fun rc0 => rc0._exec_count) = some 1 :=
  claim_C4_first_get 0 initState ⟨RFun.constF PyObj.pynone, false⟩ rfl

/-- C2: errors are sticky.  (i) A recompute whose user function raises `e`
makes the read raise `e`, caches `e` with the error flag set, bumps the
counter and clears the invalidated flag; (ii) a later read with no
intervening invalidation re-raises the same cached object without
re-invoking the function; (iii) once invalidated, the next read recomputes
afresh and, if the function now succeeds, returns the new value with the
error flag cleared. -/
theorem claim_C2_error_stickiness (fuel : Nat) (s : RState) (r : Nat)
    (rc : ReactiveSt) (e : PyObj) (h : s.reactives[r]? = some rc) :
    ((rc._invalidated || rc._running) = true →
      rfunResult s rc._func = Except.error e →
      (getValue fuel s r).1 = Except.error e ∧
      ((getValue fuel s r).2.reactives[r]?).map
        (fun rc0 => (rc0._error, rc0._value, rc0._exec_count, rc0._invalidated)) =
        some (true, e, rc._exec_count + 1, false)) ∧
    ((rc._invalidated || rc._running) = false → rc._error = true →
      rc._value = e →
      (getValue fuel s r).1 = Except.error e ∧
      ((getValue fuel s r).2.reactives[r]?).map (fun rc0 => rc0._exec_count) =
        some rc._exec_count) ∧
    (rc._invalidated = true → ∀ v : PyObj,
      rfunResult s rc._func = Except.ok v →
      (getValue fuel s r).1 = Except.ok v ∧
      ((getValue fuel s r).2.reactives[r]?).map
        (fun rc0 => (rc0._error, rc0._value)) = some (false, v)) := by
  refine ⟨?_, ?_, ?_⟩
  · intro hflag hres
    obtain ⟨h1, h2⟩ := getValue_update_spec fuel s r rc h hflag
    rw [hres] at h1 h2
    refine ⟨by simpa using h1, ?_⟩
    rw [h2]
    rfl
  · intro hflag herr hval
    obtain ⟨h1, h2⟩ := getValue_cached_spec fuel s r rc h hflag
    rw [herr, hval] at h1
    refine ⟨by simpa using h1, ?_⟩
    rw [h2]
    rfl
  · intro hinv v hres
    have hflag : (rc._invalidated || rc._running) = true := by
      rw [hinv]
      rfl
    obtain ⟨h1, h2⟩ := getValue_update_spec fuel s r rc h hflag
    rw [hres] at h1 h2
    refine ⟨by simpa using h1, ?_⟩
    rw [h2]
    rfl

/-- C2 witness: three concrete single-reactive states — (i) an invalidated
reactive whose function raises because its dependency is negative caches
and raises the error with one execution; (ii) a cached-error reactive
re-raises the same object without running; (iii) an invalidated constant
reactive recomputes successfully with the error flag clear. -/
theorem claim_C2_witness :
    ((getValue 0 ⟨[], [⟨PyObj.obj 9 (-1), []⟩],
        [⟨RFun.readCheckF 0 (PyObj.obj 4 0), false, [], true, false, -1, none, 0,
          PyObj.pynone, false⟩], [], none, [], []⟩ 0).1 =
      Except.error (PyObj.obj 4 0) ∧
      ((getValue 0 ⟨[], [⟨PyObj.obj 9 (-1), []⟩],
        [⟨RFun.readCheckF 0 (PyObj.obj 4 0), false, [], true, false, -1, none, 0,
          PyObj.pynone, false⟩], [], none, [], []⟩ 0).2.reactives[0]?).map
        (fun rc0 => (rc0._error, rc0._value, rc0._exec_count, rc0._invalidated)) =
        some (true, PyObj.obj 4 0, 0 + 1, false)) ∧
    ((getValue 0 ⟨[], [],
        [⟨RFun.constF PyObj.pynone, false, [], false, false, -1, none, 7,
          PyObj.obj 4 0, true⟩], [], none, [], []⟩ 0).1 =
      Except.error (PyObj.obj 4 0) ∧
      ((getValue 0 ⟨[], [],
        [⟨RFun.constF PyObj.pynone, false, [], false, false, -1, none, 7,
          PyObj.obj 4 0, true⟩], [], none, [], []⟩ 0).2.reactives[0]?).map
        (fun rc0 => rc0._exec_count) = some 7) ∧
    ((getValue 0 ⟨[], [],
        [⟨RFun.constF (PyObj.obj 8 2), false, [], true, false, -1, none, 3,
          PyObj.obj 4 0, true⟩], [], none, [], []⟩ 0).1 =
      Except.ok (PyObj.obj 8 2) ∧
      ((getValue 0 ⟨[], [],
        [⟨RFun.constF (PyObj.obj 8 2), false, [], true, false, -1, none, 3,
          PyObj.obj 4 0, true⟩], [], none, [], []⟩ 0).2.reactives[0]?).map
        (fun rc0 => (rc0._error, rc0._value)) = some (false, PyObj.obj 8 2)) :=
  ⟨(claim_C2_error_stickiness 0 ⟨[], [⟨PyObj.obj 9 (-1), []⟩],
      [⟨RFun.readCheckF 0 (PyObj.obj 4 0), false, [], true, false, -1, none, 0,
        PyObj.pynone, false⟩], [], none, [], []⟩ 0
      ⟨RFun.readCheckF 0 (PyObj.obj 4 0), false, [], true, false, -1, none, 0,
        PyObj.pynone, false⟩ (PyObj.obj 4 0) rfl).1 rfl rfl,
   (claim_C2_error_stickiness 0 ⟨[], [],
      [⟨RFun.constF PyObj.pynone, false, [], false, false, -1, none, 7,
        PyObj.obj 4 0, true⟩], [], none, [], []⟩ 0
      ⟨RFun.constF PyObj.pynone, false, [], false, false, -1, none, 7,
        PyObj.obj 4 0, true⟩ (PyObj.obj 4 0) rfl).2.1 rfl rfl rfl,
   (claim_C2_error_stickiness 0 ⟨[], [],
      [⟨RFun.constF (PyObj.obj 8 2), false, [], true, false, -1, none, 3,
        PyObj.obj 4 0, true⟩], [], none, [], []⟩ 0
      ⟨RFun.constF (PyObj.obj 8 2), false, [], true, false, -1, none, 3,
        PyObj.obj 4 0, true⟩ (PyObj.obj 4 0) rfl).2.2 rfl (PyObj.obj 8 2) rfl⟩

/-- C7: each constructor checks the execution policy of the supplied
function first — a coroutine function given to a synchronous variant, or a
plain function given to an asynchronous variant, raises `TypeError`
immediately, and the error branch returns no object and touches no state
(nothing is initialised before the check). -/
theorem claim_C7_construction_policy (fuel : Nat) (s : RState)
    (rf : RPyFunc) (of : OPyFunc) :
    (rf.is_async = true →
      reactiveInit s rf = Except.error "Reactive requires a non-async function") ∧
    (rf.is_async = false →
      reactiveAsyncInit s rf =
        Except.error "ReactiveAsync requires an async function") ∧
    (of.is_async = true →
      observerInit fuel s of = Except.error "Observer requires a non-async function") ∧
    (of.is_async = false →
      observerAsyncInit fuel s of =
        Except.error "ObserverAsync requires an async function") := by
  refine ⟨?_, ?_, ?_, ?_⟩
  · intro ha
    unfold reactiveInit
    rw [ha]
    rfl
  · intro ha
    unfold reactiveAsyncInit
    rw [ha]
    rfl
  · intro ha
    unfold observerInit
    rw [ha]
    rfl
  · intro ha
    unfold observerAsyncInit
    rw [ha]
    rfl

/-- C7 witness: at the empty state, an async function is rejected by the
sync constructors and a sync function by the async constructors, each with
its `TypeError` message. -/
theorem claim_C7_witness :
    (reactiveInit initState ⟨RFun.constF PyObj.pynone, true⟩ =
      Except.error "Reactive requires a non-async function") ∧
    (reactiveAsyncInit initState ⟨RFun.constF PyObj.pynone, false⟩ =
      Except.error "ReactiveAsync requires an async function") ∧
    (observerInit 1 initState ⟨OFun.noopO, true⟩ =
      Except.error "Observer requires a non-async function") ∧
    (observerAsyncInit 1 initState ⟨OFun.noopO, false⟩ =
      Except.error "ObserverAsync requires an async function") :=
  ⟨(claim_C7_construction_policy 1 initState ⟨RFun.constF PyObj.pynone, true⟩
      ⟨OFun.noopO, true⟩).1 rfl,
   (claim_C7_construction_policy 1 initState ⟨RFun.constF PyObj.pynone, false⟩
      ⟨OFun.noopO, false⟩).2.1 rfl,
   (claim_C7_construction_policy 1 initState ⟨RFun.constF PyObj.pynone, true⟩
      ⟨OFun.noopO, true⟩).2.2.1 rfl,
   (claim_C7_construction_policy 1 initState ⟨RFun.constF PyObj.pynone, false⟩
      ⟨OFun.noopO, false⟩).2.2.2 rfl⟩

lemma rvRegister_contexts (s : RState) (k : Nat) :
    (rvRegister s k).contexts = s.contexts := by
  unfold rvRegister
  cases s.current_ctx <;> rfl

lemma rvaluesLookup_append_self (m : List (String × Nat)) (k : String) (i : Nat)
    (h : rvaluesLookup m k = none) :
    rvaluesLookup (m ++ [(k, i)]) k = some i := by
  unfold rvaluesLookup at h ⊢
  have hn : m.find? (fun kv => kv.1 == k) = none := by
    cases hf : m.find? (fun kv => kv.1 == k) with
    | none => rfl
    | some kv => rw [hf] at h; exact absurd h (by simp)
  rw [List.find?_append, hn]
  simp

lemma rvRegister_of_ctx (s : RState) (k cid : Nat) (hcur : s.current_ctx = some cid) :
    rvRegister s k = mapRVal s k
      (fun rv0 => { rv0 with _dependents := depAdd rv0._dependents cid }) := by
  unfold rvRegister
  rw [hcur]

lemma mapRVal_rvals_length (s : RState) (i : Nat) (f : ReactiveValSt → ReactiveValSt) :
    (mapRVal s i f).rvals.length = s.rvals.length := by
  show (s.rvals.modify f i).length = _
  exact List.length_modify _ _ _

lemma rvGet_eq (s : RState) (k : Nat) : rvGet s k = (valueAt s k, rvRegister s k) := by
  unfold rvGet
  dsimp only
  rw [rvRegister_rvals_values s k k]
  rfl

/-- C9: reading a never-set key of a `ReactiveValues` collection does not
fail — it auto-creates a `ReactiveVal` holding `None` under the key, the
read returns `None` and registers the active context as a dependent of the
new cell, and a later write to the same key goes through that same cell
(the map and the number of allocated cells are unchanged) and invalidates
the registered dependent. -/
theorem claim_C9_reactive_values (fuel : Nat) (s : RState)
    (m : List (String × Nat)) (k : String) (v : PyObj) (cid : Nat)
    (hk : rvaluesLookup m k = none)
    (hcur : s.current_ctx = some cid)
    (hlt : cid < s.contexts.length)
    (hv : pyIs PyObj.pynone v = false) :
    (rvaluesGetitem s m k).1 = PyObj.pynone ∧
    (rvaluesGetitem s m k).2.1 = m ++ [(k, s.rvals.length)] ∧
    (rvaluesGetitem s m k).2.2.rvals[s.rvals.length]? =
      some ⟨PyObj.pynone, [cid]⟩ ∧
    (rvaluesSetitem fuel (rvaluesGetitem s m k).2.2 (rvaluesGetitem s m k).2.1
        k v).1 = m ++ [(k, s.rvals.length)] ∧
    (rvaluesSetitem fuel (rvaluesGetitem s m k).2.2 (rvaluesGetitem s m k).2.1
        k v).2.rvals.length = s.rvals.length + 1 ∧
    (rvaluesSetitem fuel (rvaluesGetitem s m k).2.2 (rvaluesGetitem s m k).2.1
        k v).2.rvals[s.rvals.length]? = some ⟨v, []⟩ ∧
    ∃ c, (rvaluesSetitem fuel (rvaluesGetitem s m k).2.2 (rvaluesGetitem s m k).2.1
        k v).2.contexts[cid]? = some c ∧ c.invalidated = true := by
  have hA : (({ s with rvals := s.rvals ++ [⟨PyObj.pynone, []⟩] } :
      RState).rvals[s.rvals.length]?) = some ⟨PyObj.pynone, []⟩ := by
    show (s.rvals ++ [(⟨PyObj.pynone, []⟩ : ReactiveValSt)])[s.rvals.length]? = _
    exact List.getElem?_concat_length _ _
  have hgot : rvaluesGetitem s m k = (PyObj.pynone, m ++ [(k, s.rvals.length)],
      mapRVal { s with rvals := s.rvals ++ [⟨PyObj.pynone, []⟩] } s.rvals.length
        (fun rv0 => { rv0 with _dependents := depAdd rv0._dependents cid })) := by
    unfold rvaluesGetitem
    rw [hk]
    dsimp only [newReactiveVal]
    rw [rvGet_eq, rvRegister_of_ctx
      { s with rvals := s.rvals ++ [⟨PyObj.pynone, []⟩] } s.rvals.length cid hcur]
    have hval : valueAt { s with rvals := s.rvals ++ [⟨PyObj.pynone, []⟩] }
        s.rvals.length = PyObj.pynone := by
      unfold valueAt
      rw [hA]
      rfl
    rw [hval]
  have hentry2 : (mapRVal { s with rvals := s.rvals ++ [⟨PyObj.pynone, []⟩] }
      s.rvals.length
      (fun rv0 => { rv0 with _dependents := depAdd rv0._dependents cid })
      ).rvals[s.rvals.length]? = some ⟨PyObj.pynone, [cid]⟩ := by
    have hm := getElem?_modify_self
      (({ s with rvals := s.rvals ++ [⟨PyObj.pynone, []⟩] } : RState).rvals)
      s.rvals.length
      (fun rv0 => { rv0 with _dependents := depAdd rv0._dependents cid })
      ⟨PyObj.pynone, []⟩ hA
    rw [show ((fun rv0 => { rv0 with _dependents := depAdd rv0._dependents cid })
        (⟨PyObj.pynone, []⟩ : ReactiveValSt)) = (⟨PyObj.pynone, [cid]⟩ : ReactiveValSt)
      by simp [depAdd]] at hm
    exact hm
  have hset : rvaluesSetitem fuel
      (mapRVal { s with rvals := s.rvals ++ [⟨PyObj.pynone, []⟩] } s.rvals.length
        (fun rv0 => { rv0 with _dependents := depAdd rv0._dependents cid }))
      (m ++ [(k, s.rvals.length)]) k v =
      (m ++ [(k, s.rvals.length)],
        mapRVal (invalidateCtxList fuel
          (mapRVal (mapRVal { s with rvals := s.rvals ++ [⟨PyObj.pynone, []⟩] }
            s.rvals.length
            (fun rv0 => { rv0 with _dependents := depAdd rv0._dependents cid }))
            s.rvals.length (fun rv0 => { rv0 with _value := v })) [cid])
          s.rvals.length (fun rv0 => { rv0 with _dependents := [] })) := by
    unfold rvaluesSetitem
    rw [rvaluesLookup_append_self m k s.rvals.length hk]
    dsimp only
    rw [rvSet_of_distinct fuel _ s.rvals.length ⟨PyObj.pynone, [cid]⟩ v hentry2 hv]
  have hval2 := getElem?_modify_self
    ((mapRVal { s with rvals := s.rvals ++ [⟨PyObj.pynone, []⟩] } s.rvals.length
      (fun rv0 => { rv0 with _dependents := depAdd rv0._dependents cid })).rvals)
    s.rvals.length (fun rv0 => { rv0 with _value := v })
    ⟨PyObj.pynone, [cid]⟩ hentry2
  have hcas := (invalidateCtxList_preserves fuel
    (mapRVal (mapRVal { s with rvals := s.rvals ++ [⟨PyObj.pynone, []⟩] }
      s.rvals.length
      (fun rv0 => { rv0 with _dependents := depAdd rv0._dependents cid }))
      s.rvals.length (fun rv0 => { rv0 with _value := v })) [cid]).1
  rw [hgot]
  dsimp only
  rw [hset]
  dsimp only
  refine ⟨rfl, rfl, hentry2, rfl, ?_, ?_, ?_⟩
  · rw [mapRVal_rvals_length, hcas, mapRVal_rvals_length, mapRVal_rvals_length]
    simp
  · exact getElem?_modify_self
      ((invalidateCtxList fuel
        (mapRVal (mapRVal { s with rvals := s.rvals ++ [⟨PyObj.pynone, []⟩] }
          s.rvals.length
          (fun rv0 => { rv0 with _dependents := depAdd rv0._dependents cid }))
          s.rvals.length (fun rv0 => { rv0 with _value := v })) [cid]).rvals)
      s.rvals.length
      (fun rv0 => { rv0 with _dependents := ([] : List Nat) })
      ⟨v, [cid]⟩ (by rw [hcas]; exact hval2)
  · have hltm : cid < (mapRVal (mapRVal
        { s with rvals := s.rvals ++ [⟨PyObj.pynone, []⟩] } s.rvals.length
        (fun rv0 => { rv0 with _dependents := depAdd rv0._dependents cid }))
        s.rvals.length (fun rv0 => { rv0 with _value := v })).contexts.length := hlt
    obtain ⟨c, hc, hcinv⟩ := invalidateCtxList_marks fuel _ [cid] cid
      (by simp) hltm
    exact ⟨c, hc, hcinv⟩

/-- C9 witness: a state with one context active, an empty map and no cells:
reading key `"n"` auto-creates cell 0 holding `None` with context 0
registered; writing `obj 1 3` then reuses cell 0 and invalidates context
0. -/
theorem claim_C9_witness :
    (rvaluesGetitem ⟨[⟨0, false, [], []⟩], [], [], [], some 0, [], []⟩ [] "n").1 =
      PyObj.pynone ∧
    (rvaluesGetitem ⟨[⟨0, false, [], []⟩], [], [], [], some 0, [], []⟩ [] "n").2.1 =
      [("n", 0)] ∧
    (rvaluesGetitem ⟨[⟨0, false, [], []⟩], [], [], [], some 0, [], []⟩ []
      "n").2.2.rvals[0]? = some ⟨PyObj.pynone, [0]⟩ ∧
    (rvaluesSetitem 2
      (rvaluesGetitem ⟨[⟨0, false, [], []⟩], [], [], [], some 0, [], []⟩ [] "n").2.2
      (rvaluesGetitem ⟨[⟨0, false, [], []⟩], [], [], [], some 0, [], []⟩ [] "n").2.1
      "n" (PyObj.obj 1 3)).1 = [("n", 0)] ∧
    (rvaluesSetitem 2
      (rvaluesGetitem ⟨[⟨0, false, [], []⟩], [], [], [], some 0, [], []⟩ [] "n").2.2
      (rvaluesGetitem ⟨[⟨0, false, [], []⟩], [], [], [], some 0, [], []⟩ [] "n").2.1
      "n" (PyObj.obj 1 3)).2.rvals.length = 0 + 1 ∧
    (rvaluesSetitem 2
      (rvaluesGetitem ⟨[⟨0, false, [], []⟩], [], [], [], some 0, [], []⟩ [] "n").2.2
      (rvaluesGetitem ⟨[⟨0, false, [], []⟩], [], [], [], some 0, [], []⟩ [] "n").2.1
      "n" (PyObj.obj 1 3)).2.rvals[0]? = some ⟨PyObj.obj 1 3, []⟩ ∧
    ∃ c, (rvaluesSetitem 2
      (rvaluesGetitem ⟨[⟨0, false, [], []⟩], [], [], [], some 0, [], []⟩ [] "n").2.2
      (rvaluesGetitem ⟨[⟨0, false, [], []⟩], [], [], [], some 0, [], []⟩ [] "n").2.1
      "n" (PyObj.obj 1 3)).2.contexts[0]? = some c ∧ c.invalidated = true :=
  claim_C9_reactive_values 2 ⟨[⟨0, false, [], []⟩], [], [], [], some 0, [], []⟩
    [] "n" (PyObj.obj 1 3) 0 rfl rfl (by decide) (by decide)

/-! ## Observer lifecycle -/

lemma mapObserver_entry (s : RState) (o : Nat) (f : ObserverSt → ObserverSt)
    (ob : ObserverSt) (h : s.observers[o]? = some ob) :
    (mapObserver s o f).observers[o]? = some (f ob) :=
  getElem?_modify_self _ _ _ _ h

lemma rvRegister_observers (s : RState) (k : Nat) :
    (rvRegister s k).observers = s.observers := by
  unfold rvRegister
  cases s.current_ctx <;> rfl

lemma obsSig_congr_observers {s s2 : RState} (h : s2.observers = s.observers)
    (o : Nat) : obsSig s2 o = obsSig s o := by
  unfold obsSig
  rw [h]

lemma rvSet_obsSig (fuel : Nat) (s : RState) (k : Nat) (v : PyObj) (o : Nat) :
    obsSig (rvSet fuel s k v).2 o = obsSig s o := by
  unfold rvSet
  split
  · rfl
  · split
    · rfl
    · next rv hk hne =>
      exact (invalidateCtxList_preserves fuel
        (mapRVal s k (fun rv0 => { rv0 with _value := v })) rv._dependents).2.1 o

lemma rvGet_obsSig (s : RState) (k : Nat) (o : Nat) :
    obsSig (rvGet s k).2 o = obsSig s o :=
  obsSig_congr_observers (rvRegister_observers s k) o

lemma evalOFun_obsSig (fuel : Nat) (s : RState) (f : OFun) (o : Nat) :
    obsSig (evalOFun fuel s f) o = obsSig s o := by
  cases f with
  | noopO => rfl
  | readO k => exact rvGet_obsSig s k o
  | setO k v => exact rvSet_obsSig fuel s k v o

lemma ctxOnInvalidate_obsSig (fuel : Nat) (s : RState) (cid : Nat) (cb : Callback)
    (o : Nat) : obsSig (ctxOnInvalidate fuel s cid cb) o = obsSig s o := by
  unfold ctxOnInvalidate
  split
  · rfl
  · split
    · exact (runCallback_preserves fuel s cb).2.1 o
    · rfl

lemma evalRFun_obsSig (s : RState) (f : RFun) (o : Nat) :
    obsSig (evalRFun s f).2 o = obsSig s o := by
  cases f <;>
    first
      | rfl
      | exact obsSig_congr_observers (rvRegister_observers s _) o

lemma runFunc_obsSig (s : RState) (r : Nat) (o : Nat) :
    obsSig (runFunc s r) o = obsSig s o := by
  unfold runFunc
  split
  · rfl
  · next rc hr =>
    dsimp only
    split <;>
      exact evalRFun_obsSig
        (mapReactive s r (fun rc0 => { rc0 with _error := false })) rc._func o

lemma updateValue_obsSig (fuel : Nat) (s : RState) (r : Nat) (o : Nat) :
    obsSig (updateValue fuel s r) o = obsSig s o := by
  unfold updateValue
  split
  · rfl
  · next rc hr =>
    dsimp only [newContext, ctxRun]
    exact (runFunc_obsSig _ r o).trans (ctxOnInvalidate_obsSig fuel _ _ _ o)

lemma getValue_snd (fuel : Nat) (s : RState) (r : Nat) :
    (getValue fuel s r).2 =
      (match (reactiveRegister s r).reactives[r]? with
        | none => reactiveRegister s r
        | some rc =>
          if rc._invalidated || rc._running then
            updateValue fuel (reactiveRegister s r) r
          else reactiveRegister s r) := by
  unfold getValue
  dsimp only
  split
  · rfl
  · split <;> rfl

lemma getValue_obsSig (fuel : Nat) (s : RState) (r : Nat) (o : Nat) :
    obsSig (getValue fuel s r).2 o = obsSig s o := by
  have hreg : obsSig (reactiveRegister s r) o = obsSig s o := by
    refine obsSig_congr_observers ?_ o
    unfold reactiveRegister
    cases s.current_ctx <;> rfl
  rw [getValue_snd]
  split
  · exact hreg
  · split
    · exact (updateValue_obsSig fuel _ r o).trans hreg
    · exact hreg

lemma addPendingFlush_observers (s : RState) (cid : Nat) :
    (addPendingFlush s cid).observers = s.observers := by
  unfold addPendingFlush
  split <;> rfl

lemma addPendingFlush_contexts (s : RState) (cid : Nat) :
    (addPendingFlush s cid).contexts = s.contexts := by
  unfold addPendingFlush
  split <;> rfl

lemma addPendingFlush_mem (s : RState) (cid : Nat) :
    cid ∈ (addPendingFlush s cid).pending_flush := by
  unfold addPendingFlush
  split
  · assumption
  · simp

lemma addPendingFlush_of_nil (s : RState) (cid : Nat) (h : s.pending_flush = []) :
    (addPendingFlush s cid).pending_flush = [cid] := by
  unfold addPendingFlush
  rw [h]
  simp

lemma runCallbacks_singleton (fuel : Nat) (s : RState) (cb : Callback) :
    runCallbacks fuel s [cb] = runCallback fuel s cb := by
  simp only [runCallbacks]

lemma runFlushCbs_singleton (fuel : Nat) (s : RState) (cb : FlushCb) :
    runFlushCbs fuel s [cb] = runFlushCb fuel s cb := by
  simp only [runFlushCbs]

lemma obsSig_mapObserver_exec (s : RState) (o : Nat) :
    obsSig (mapObserver s o
      (fun ob0 => { ob0 with _exec_count := ob0._exec_count + 1 })) o =
    (obsSig s o).map (fun de => (de.1, de.2 + 1)) := by
  unfold obsSig mapObserver
  dsimp only
  rw [List.getElem?_modify_eq]
  cases s.observers[o]? <;> rfl

/-- `Observer.run` bumps the observer's execution counter by one and leaves
its destroyed flag alone. -/
lemma observerRun_sig (fuel : Nat) (s : RState) (o : Nat) (ob : ObserverSt)
    (h : s.observers[o]? = some ob) :
    obsSig (observerRun fuel s o) o = some (ob._destroyed, ob._exec_count + 1) := by
  unfold observerRun
  rw [h]
  dsimp only
  unfold observerCreateContext
  dsimp only [newContext, ctxRun]
  refine Eq.trans (evalOFun_obsSig fuel _ ob._func o) ?_
  refine Eq.trans (obsSig_mapObserver_exec _ o) ?_
  have h2 : obsSig (ctxOnFlush (ctxOnInvalidate fuel
      (mapObserver { s with contexts := s.contexts ++ [⟨s.contexts.length, false, [], []⟩] }
        o (fun ob0 => { ob0 with _ctx := some s.contexts.length }))
      s.contexts.length
      (Callback.observerOnInvalidate o s.contexts.length))
      s.contexts.length (FlushCb.observerFlush o)) o = some (ob._destroyed, ob._exec_count) := by
    refine Eq.trans (ctxOnInvalidate_obsSig fuel _ _ _ o) ?_
    refine Eq.trans (obsSig_modify _ o o _ (fun ob0 => ⟨rfl, rfl⟩)) ?_
    unfold obsSig
    rw [h]
    rfl
  rw [h2]
  rfl

/-- `Observer._create_context` computed: the fresh context is allocated at
the end of the context list, stored in the observer, and receives the two
callbacks. -/
lemma observerCreateContext_fresh (fuel : Nat) (s : RState) (o : Nat) :
    observerCreateContext fuel s o =
      (s.contexts.length,
        ctxOnFlush (mapCtx (mapObserver
          { s with contexts := s.contexts ++ [⟨s.contexts.length, false, [], []⟩] }
          o (fun ob0 => { ob0 with _ctx := some s.contexts.length }))
          s.contexts.length
          (fun c0 => { c0 with invalidate_callbacks := c0.invalidate_callbacks ++
            [Callback.observerOnInvalidate o s.contexts.length] }))
          s.contexts.length (FlushCb.observerFlush o)) := by
  unfold observerCreateContext
  dsimp only [newContext]
  rw [ctxOnInvalidate_fresh fuel _ s.contexts.length
    (Callback.observerOnInvalidate o s.contexts.length)
    ⟨s.contexts.length, false, [], []⟩ ?hc rfl]
  case hc =>
    show (s.contexts ++ [(⟨s.contexts.length, false, [], []⟩ : Context)]
      )[s.contexts.length]? = _
    exact List.getElem?_concat_length _ _

/-- `Observer.__init__` computed, for a synchronous function: allocate the
observer, create its first context, and invalidate that context. -/
lemma observerInit_eq (fuel : Nat) (s : RState) (f : OPyFunc)
    (hf : f.is_async = false) :
    observerInit fuel s f = Except.ok (s.observers.length,
      ctxInvalidate fuel
        (observerCreateContext fuel
          { s with observers := s.observers ++ [⟨f.code, false, [], false, none, 0⟩] }
          s.observers.length).2
        (observerCreateContext fuel
          { s with observers := s.observers ++ [⟨f.code, false, [], false, none, 0⟩] }
          s.observers.length).1) := by
  unfold observerInit
  simp only [hf, Bool.false_eq_true, if_false]

/-- One step of `Context.invalidate` on a not-yet-invalidated context:
mark it, drain the callback list, and fire the drained callbacks. -/
lemma ctxInvalidate_step (fuel : Nat) (s : RState) (cid : Nat) (c : Context)
    (h : s.contexts[cid]? = some c) (hinv : c.invalidated = false) :
    ctxInvalidate (fuel + 1) s cid = runCallbacks fuel
      (mapCtx s cid
        (fun c0 => { c0 with invalidated := true, invalidate_callbacks := [] }))
      c.invalidate_callbacks := by
  unfold ctxInvalidate
  rw [h]
  simp only [hinv, Bool.false_eq_true, if_false]

/-- Firing `on_invalidate_cb` of an observer: drop the context reference,
fire (log) the external callbacks, enqueue the context for flush. -/
lemma runCallback_observer_step (fuel : Nat) (s : RState) (o cid : Nat)
    (ob : ObserverSt) (h : s.observers[o]? = some ob) :
    runCallback fuel s (Callback.observerOnInvalidate o cid) =
      addPendingFlush
        { (mapObserver s o (fun ob0 => { ob0 with _ctx := none })) with
          fired_cbs := (mapObserver s o (fun ob0 => { ob0 with _ctx := none })
            ).fired_cbs ++ ob._invalidate_callbacks } cid := by
  unfold runCallback
  rw [h]

/-- A flush callback on a live observer re-runs it. -/
lemma runFlushCb_observer_run (fuel : Nat) (s : RState) (o : Nat)
    (ob : ObserverSt) (h : s.observers[o]? = some ob)
    (hd : ob._destroyed = false) :
    runFlushCb fuel s (FlushCb.observerFlush o) = observerRun fuel s o := by
  unfold runFlushCb
  dsimp only
  rw [h]
  simp [hd]

/-- A single-element flush pass: dequeue the one pending context and run
its flush callbacks. -/
lemma flush_one (s : RState) (cid : Nat) (h : s.pending_flush = [cid]) :
    flush 1 s = runFlushCbs 0 { s with pending_flush := [] }
      (((s.contexts[cid]?).map (fun c => c.flush_callbacks)).getD []) := by
  unfold flush
  rw [h]
  rfl

/-- The state `Observer.__init__` leaves behind for a synchronous function:
observer appended, first context created with both callbacks, context
invalidated (marked, drained, fired), context reference dropped, context
enqueued for flush. -/
def c5State (s : RState) (f : OPyFunc) : RState :=
  let M := mapObserver (mapCtx (ctxOnFlush (mapCtx (mapObserver
      { ({ s with observers :=
          s.observers ++ [⟨f.code, false, [], false, none, 0⟩] } : RState) with
        contexts := s.contexts ++ [⟨s.contexts.length, false, [], []⟩] }
      s.observers.length
      (fun ob0 => { ob0 with _ctx := some s.contexts.length }))
      s.contexts.length
      (fun c0 => { c0 with invalidate_callbacks := c0.invalidate_callbacks ++
        [Callback.observerOnInvalidate s.observers.length s.contexts.length] }))
      s.contexts.length (FlushCb.observerFlush s.observers.length))
      s.contexts.length
      (fun c0 => { c0 with invalidated := true, invalidate_callbacks := [] }))
    s.observers.length (fun ob0 => { ob0 with _ctx := none })
  addPendingFlush
    { M with fired_cbs := M.fired_cbs ++
        (⟨f.code, false, [], false, some s.contexts.length, 0⟩ :
          ObserverSt)._invalidate_callbacks }
    s.contexts.length

/-- C5: `Observer.__init__` never runs the user function inline — it
creates the observer with counter 0, creates its first context, and
invalidates it immediately, which drains the context's invalidation
callback, drops the context reference, and enqueues the context for flush;
the counter first reaches 1 at the first flush after construction. -/
theorem claim_C5_deferred_first_run (fuel : Nat) (s : RState) (f : OPyFunc)
    (hf : f.is_async = false) :
    ∃ s1, observerInit (fuel + 1) s f = Except.ok (s.observers.length, s1) ∧
      obsSig s1 s.observers.length = some (false, 0) ∧
      s1.contexts[s.contexts.length]? = some ⟨s.contexts.length, true, [],
        [FlushCb.observerFlush s.observers.length]⟩ ∧
      s.contexts.length ∈ s1.pending_flush ∧
      (s.pending_flush = [] →
        obsSig (flush 1 s1) s.observers.length = some (false, 1)) := by
  have hobA : (({ s with observers :=
      s.observers ++ [⟨f.code, false, [], false, none, 0⟩] } :
      RState).observers[s.observers.length]?) =
      some ⟨f.code, false, [], false, none, 0⟩ := by
    show (s.observers ++ [(⟨f.code, false, [], false, none, 0⟩ : ObserverSt)]
      )[s.observers.length]? = _
    exact List.getElem?_concat_length _ _
  have hctxB : (mapObserver
      { ({ s with observers :=
          s.observers ++ [⟨f.code, false, [], false, none, 0⟩] } : RState) with
        contexts := s.contexts ++ [⟨s.contexts.length, false, [], []⟩] }
      s.observers.length
      (fun ob0 => { ob0 with _ctx := some s.contexts.length })
      ).contexts[s.contexts.length]? = some ⟨s.contexts.length, false, [], []⟩ := by
    show (s.contexts ++ [(⟨s.contexts.length, false, [], []⟩ : Context)]
      )[s.contexts.length]? = _
    exact List.getElem?_concat_length _ _
  have hctxD : (ctxOnFlush (mapCtx (mapObserver
      { ({ s with observers :=
          s.observers ++ [⟨f.code, false, [], false, none, 0⟩] } : RState) with
        contexts := s.contexts ++ [⟨s.contexts.length, false, [], []⟩] }
      s.observers.length
      (fun ob0 => { ob0 with _ctx := some s.contexts.length }))
      s.contexts.length
      (fun c0 => { c0 with invalidate_callbacks := c0.invalidate_callbacks ++
        [Callback.observerOnInvalidate s.observers.length s.contexts.length] }))
      s.contexts.length (FlushCb.observerFlush s.observers.length)
      ).contexts[s.contexts.length]? =
      some ⟨s.contexts.length, false,
        [Callback.observerOnInvalidate s.observers.length s.contexts.length],
        [FlushCb.observerFlush s.observers.length]⟩ := by
    have hC := getElem?_modify_self _ s.contexts.length
      (fun c0 => { c0 with invalidate_callbacks := c0.invalidate_callbacks ++
        [Callback.observerOnInvalidate s.observers.length s.contexts.length] })
      ⟨s.contexts.length, false, [], []⟩ hctxB
    exact getElem?_modify_self _ s.contexts.length
      (fun c0 => { c0 with flush_callbacks := c0.flush_callbacks ++
        [FlushCb.observerFlush s.observers.length] })
      ⟨s.contexts.length, false,
        [Callback.observerOnInvalidate s.observers.length s.contexts.length], []⟩ hC
  have hobE : (mapCtx (ctxOnFlush (mapCtx (mapObserver
      { ({ s with observers :=
          s.observers ++ [⟨f.code, false, [], false, none, 0⟩] } : RState) with
        contexts := s.contexts ++ [⟨s.contexts.length, false, [], []⟩] }
      s.observers.length
      (fun ob0 => { ob0 with _ctx := some s.contexts.length }))
      s.contexts.length
      (fun c0 => { c0 with invalidate_callbacks := c0.invalidate_callbacks ++
        [Callback.observerOnInvalidate s.observers.length s.contexts.length] }))
      s.contexts.length (FlushCb.observerFlush s.observers.length))
      s.contexts.length
      (fun c0 => { c0 with invalidated := true, invalidate_callbacks := [] })).observers[s.observers.length]? =
      some ⟨f.code, false, [], false, some s.contexts.length, 0⟩ :=
    mapObserver_entry _ s.observers.length
      (fun ob0 => { ob0 with _ctx := some s.contexts.length })
      ⟨f.code, false, [], false, none, 0⟩ hobA
  have hS := observerInit_eq (fuel + 1) s f hf
  rw [observerCreateContext_fresh (fuel + 1)
    { s with observers := s.observers ++ [⟨f.code, false, [], false, none, 0⟩] }
    s.observers.length] at hS
  dsimp only at hS
  rw [ctxInvalidate_step fuel _ s.contexts.length
    ⟨s.contexts.length, false,
      [Callback.observerOnInvalidate s.observers.length s.contexts.length],
      [FlushCb.observerFlush s.observers.length]⟩ hctxD rfl] at hS
  rw [runCallbacks_singleton] at hS
  rw [runCallback_observer_step fuel _ s.observers.length s.contexts.length
    ⟨f.code, false, [], false, some s.contexts.length, 0⟩ hobE] at hS
  have hSentry : (c5State s f).observers[s.observers.length]? =
      some ⟨f.code, false, [], false, none, 0⟩ := by
    show (addPendingFlush _ s.contexts.length).observers[s.observers.length]? = _
    rw [addPendingFlush_observers]
    exact mapObserver_entry _ s.observers.length
      (fun ob0 => { ob0 with _ctx := none })
      ⟨f.code, false, [], false, some s.contexts.length, 0⟩ hobE
  have hSctx : (c5State s f).contexts[s.contexts.length]? =
      some ⟨s.contexts.length, true, [],
        [FlushCb.observerFlush s.observers.length]⟩ := by
    show (addPendingFlush _ s.contexts.length).contexts[s.contexts.length]? = _
    rw [addPendingFlush_contexts]
    exact getElem?_modify_self _ s.contexts.length
      (fun c0 => { c0 with invalidated := true, invalidate_callbacks := [] })
      ⟨s.contexts.length, false,
        [Callback.observerOnInvalidate s.observers.length s.contexts.length],
        [FlushCb.observerFlush s.observers.length]⟩ hctxD
  refine ⟨c5State s f, hS, ?_, hSctx, ?_, ?_⟩
  · unfold obsSig
    rw [hSentry]
    rfl
  · exact addPendingFlush_mem _ _
  · intro hp
    have hpend : (c5State s f).pending_flush = [s.contexts.length] :=
      addPendingFlush_of_nil _ s.contexts.length hp
    rw [flush_one (c5State s f) s.contexts.length hpend, hSctx]
    dsimp only [Option.map, Option.getD]
    rw [runFlushCbs_singleton]
    have hSentry2 : ({ c5State s f with pending_flush := ([] : List Nat) } :
        RState).observers[s.observers.length]? =
        some ⟨f.code, false, [], false, none, 0⟩ := hSentry
    have heq := runFlushCb_observer_run 0
      ({ c5State s f with pending_flush := ([] : List Nat) } : RState)
      s.observers.length ⟨f.code, false, [], false, none, 0⟩ hSentry2 rfl
    have hrun := observerRun_sig 0
      ({ c5State s f with pending_flush := ([] : List Nat) } : RState)
      s.observers.length ⟨f.code, false, [], false, none, 0⟩ hSentry2
    exact (congrArg (fun st => obsSig st s.observers.length) heq).trans hrun

/-- C5 witness: constructing an observer with a synchronous no-op function
in the empty state defers the first run — counter 0, context 0 invalidated
and pending — and the first flush takes the counter to 1. -/
theorem claim_C5_witness :
    ∃ s1, observerInit (0 + 1) initState ⟨OFun.noopO, false⟩ =
        Except.ok (initState.observers.length, s1) ∧
      obsSig s1 initState.observers.length = some (false, 0) ∧
      s1.contexts[initState.contexts.length]? =
        some ⟨initState.contexts.length, true, [],
          [FlushCb.observerFlush initState.observers.length]⟩ ∧
      initState.contexts.length ∈ s1.pending_flush ∧
      (initState.pending_flush = [] →
        obsSig (flush 1 s1) initState.observers.length = some (false, 1)) :=
  claim_C5_deferred_first_run 0 initState ⟨OFun.noopO, false⟩ rfl

/-! ## Destroyed observers never run again -/

lemma obsSig_mapObserver_ne (s : RState) (p o : Nat) (hne : p ≠ o)
    (f : ObserverSt → ObserverSt) :
    obsSig (mapObserver s p f) o = obsSig s o := by
  unfold obsSig mapObserver
  dsimp only
  rw [List.getElem?_modify_ne _ _ hne]

/-- `Observer.run` on a different observer does not touch this one's
signature. -/
lemma observerRun_obsSig_ne (fuel : Nat) (s : RState) (p o : Nat) (hne : p ≠ o) :
    obsSig (observerRun fuel s p) o = obsSig s o := by
  unfold observerRun
  split
  · rfl
  · next ob hp =>
    dsimp only
    unfold observerCreateContext
    dsimp only [newContext, ctxRun]
    refine Eq.trans (evalOFun_obsSig fuel _ ob._func o) ?_
    refine Eq.trans (obsSig_mapObserver_ne _ p o hne _) ?_
    refine Eq.trans (ctxOnInvalidate_obsSig fuel _ _ _ o) ?_
    exact obsSig_mapObserver_ne _ p o hne _

/-- A flush callback cannot change the signature of a destroyed
observer: its own callback skips the run, and other observers' runs touch
only their own counters. -/
lemma runFlushCb_sig_destroyed (fuel : Nat) (s : RState) (cb : FlushCb)
    (o n : Nat) (h : obsSig s o = some (true, n)) :
    obsSig (runFlushCb fuel s cb) o = some (true, n) := by
  cases cb with
  | observerFlush p =>
    unfold runFlushCb
    dsimp only
    cases hp : s.observers[p]? with
    | none => exact h
    | some obp =>
      dsimp only
      by_cases hd : obp._destroyed = true
      · rw [if_pos hd]
        exact h
      · have hne : p ≠ o := by
          intro hpe
          subst hpe
          unfold obsSig at h
          rw [hp] at h
          simp only [Option.map, Option.some.injEq, Prod.mk.injEq] at h
          exact hd h.1
        rw [Bool.not_eq_true] at hd
        simp only [hd, Bool.false_eq_true, if_false]
        exact (observerRun_obsSig_ne fuel s p o hne).trans h

lemma runFlushCbs_sig_destroyed (fuel : Nat) (s : RState) (cbs : List FlushCb)
    (o n : Nat) (h : obsSig s o = some (true, n)) :
    obsSig (runFlushCbs fuel s cbs) o = some (true, n) := by
  induction cbs generalizing s with
  | nil => exact h
  | cons cb rest ih =>
    unfold runFlushCbs
    exact ih _ (runFlushCb_sig_destroyed fuel s cb o n h)

/-- A whole flush pass cannot change the signature of a destroyed
observer. -/
lemma flush_sig_destroyed (fuel : Nat) (s : RState) (o n : Nat)
    (h : obsSig s o = some (true, n)) :
    obsSig (flush fuel s) o = some (true, n) := by
  induction fuel generalizing s with
  | zero => exact h
  | succ fuel' ih =>
    unfold flush
    cases hpend : s.pending_flush with
    | nil => exact h
    | cons cid rest =>
      dsimp only
      exact ih _ (runFlushCbs_sig_destroyed fuel' _ _ o n h)

/-- The engine's public operations, used to state properties that hold
under any subsequent use of the engine. -/
inductive APIOp where
  | opSet (k : Nat) (v : PyObj)
  | opNewRVal (v : PyObj)
  | opRVGet (k : Nat)
  | opGetValue (r : Nat)
  | opFlush
  | opDestroy (o : Nat)
  | opOnInvalidate (o : Nat) (tag : Nat)
  | opReactiveInit (f : RPyFunc)
  | opReactiveAsyncInit (f : RPyFunc)
  | opObserverInit (f : OPyFunc)
  | opObserverAsyncInit (f : OPyFunc)
deriving DecidableEq, Repr

/-- The state a constructor leaves: the new state on success, the original
state when the `TypeError` was raised before any state change. -/
def initResultState (s : RState) (r : Except String (Nat × RState)) : RState :=
  match r with
  | Except.ok x => x.2
  | Except.error _ => s

/-- Run one public operation for its state effect. -/
def applyOp (fuel : Nat) (s : RState) : APIOp → RState
  | APIOp.opSet k v => (rvSet fuel s k v).2
  | APIOp.opNewRVal v => (newReactiveVal s v).2
  | APIOp.opRVGet k => (rvGet s k).2
  | APIOp.opGetValue r => (getValue fuel s r).2
  | APIOp.opFlush => flush fuel s
  | APIOp.opDestroy o => observerDestroy fuel s o
  | APIOp.opOnInvalidate o tag => observerOnInvalidate s o tag
  | APIOp.opReactiveInit f => initResultState s (reactiveInit s f)
  | APIOp.opReactiveAsyncInit f => initResultState s (reactiveAsyncInit s f)
  | APIOp.opObserverInit f => initResultState s (observerInit fuel s f)
  | APIOp.opObserverAsyncInit f => initResultState s (observerAsyncInit fuel s f)

/-- Run a sequence of public operations. -/
def applyOps (fuel : Nat) (s : RState) : List APIOp → RState
  | [] => s
  | op :: rest => applyOps fuel (applyOp fuel s op) rest

lemma obsSig_lt (s : RState) (o : Nat) (p : Bool × Nat) (h : obsSig s o = some p) :
    o < s.observers.length := by
  by_contra hge
  push_neg at hge
  unfold obsSig at h
  rw [List.getElem?_eq_none hge] at h
  exact absurd h (by simp)

lemma obsSig_append (s : RState) (o : Nat) (x : ObserverSt)
    (hlt : o < s.observers.length) :
    obsSig { s with observers := s.observers ++ [x] } o = obsSig s o := by
  unfold obsSig
  dsimp only
  rw [List.getElem?_append_left hlt]

/-- `Observer.destroy` of any observer preserves a destroyed signature. -/
lemma observerDestroy_sig_pres (fuel : Nat) (s : RState) (p o n : Nat)
    (h : obsSig s o = some (true, n)) :
    obsSig (observerDestroy fuel s p) o = some (true, n) := by
  unfold observerDestroy
  split
  · exact h
  · next ob hp =>
    have h1 : obsSig (mapObserver s p (fun ob0 => { ob0 with _destroyed := true })) o =
        some (true, n) := by
      by_cases he : p = o
      · subst he
        unfold obsSig at h ⊢
        unfold mapObserver
        dsimp only
        rw [List.getElem?_modify_eq, hp]
        rw [hp] at h
        simp only [Option.map, Option.some.injEq, Prod.mk.injEq] at h
        show some (true, ob._exec_count) = some (true, n)
        rw [h.2]
      · exact (obsSig_mapObserver_ne s p o he _).trans h
    split
    · exact h1
    · exact ((ctxInvalidate_preserves fuel _ _).2.1 o).trans h1

/-- `Observer.__init__` preserves the signatures of existing observers. -/
lemma observerInit_sig_pres (fuel : Nat) (s : RState) (f : OPyFunc) (o n : Nat)
    (h : obsSig s o = some (true, n)) :
    obsSig (initResultState s (observerInit fuel s f)) o = some (true, n) := by
  have hlt := obsSig_lt s o (true, n) h
  by_cases ha : f.is_async = true
  · unfold observerInit
    rw [if_pos ha]
    exact h
  · rw [Bool.not_eq_true] at ha
    rw [observerInit_eq fuel s f ha]
    unfold initResultState
    dsimp only
    refine Eq.trans ((ctxInvalidate_preserves fuel _ _).2.1 o) ?_
    rw [observerCreateContext_fresh]
    dsimp only
    refine Eq.trans (obsSig_mapObserver_ne _ s.observers.length o
      (Nat.ne_of_gt hlt) _) ?_
    exact (obsSig_append s o _ hlt).trans h

/-- `ObserverAsync.__init__` preserves the signatures of existing
observers. -/
lemma observerAsyncInit_sig_pres (fuel : Nat) (s : RState) (f : OPyFunc) (o n : Nat)
    (h : obsSig s o = some (true, n)) :
    obsSig (initResultState s (observerAsyncInit fuel s f)) o = some (true, n) := by
  have hlt := obsSig_lt s o (true, n) h
  unfold observerAsyncInit
  by_cases ha : f.is_async = true
  · rw [ha]
    simp only [Bool.not_true, Bool.false_eq_true, if_false]
    cases hoi : observerInit fuel s ⟨OFun.noopO, false⟩ with
    | error e => exact h
    | ok x =>
      dsimp only [initResultState]
      have hx : x.1 = s.observers.length ∧ obsSig x.2 o = some (true, n) := by
        have h2 := observerInit_sig_pres fuel s ⟨OFun.noopO, false⟩ o n h
        rw [hoi] at h2
        rw [observerInit_eq fuel s ⟨OFun.noopO, false⟩ rfl] at hoi
        have hfst : x.1 = s.observers.length := by
          rw [show x = (x.1, x.2) from rfl] at hoi
          exact (Prod.mk.injEq _ _ _ _ ▸ (Except.ok.inj hoi)).1.symm ▸ rfl
        exact ⟨hfst, h2⟩
      rw [hx.1]
      exact (obsSig_mapObserver_ne _ s.observers.length o
        (Nat.ne_of_gt hlt) _).trans hx.2
  · rw [Bool.not_eq_true] at ha
    rw [ha]
    simp only [Bool.not_false, if_true]
    exact h

/-- No public operation changes the destroyed flag or the execution counter
of a destroyed observer. -/
lemma applyOp_sig_destroyed (fuel : Nat) (s : RState) (op : APIOp) (o n : Nat)
    (h : obsSig s o = some (true, n)) :
    obsSig (applyOp fuel s op) o = some (true, n) := by
  unfold applyOp
  cases op with
  | opSet k v => exact (rvSet_obsSig fuel s k v o).trans h
  | opNewRVal v => exact h
  | opRVGet k => exact (rvGet_obsSig s k o).trans h
  | opGetValue r => exact (getValue_obsSig fuel s r o).trans h
  | opFlush => exact flush_sig_destroyed fuel s o n h
  | opDestroy p => exact observerDestroy_sig_pres fuel s p o n h
  | opOnInvalidate p tag =>
    exact (obsSig_modify s p o
      (fun ob0 => { ob0 with _invalidate_callbacks :=
        ob0._invalidate_callbacks ++ [tag] })
      (fun ob0 => ⟨rfl, rfl⟩)).trans h
  | opReactiveInit f =>
    show obsSig (initResultState s (reactiveInit s f)) o = some (true, n)
    unfold reactiveInit
    by_cases ha : f.is_async = true
    · rw [if_pos ha]
      exact h
    · rw [Bool.not_eq_true] at ha
      rw [ha]
      exact h
  | opReactiveAsyncInit f =>
    show obsSig (initResultState s (reactiveAsyncInit s f)) o = some (true, n)
    unfold reactiveAsyncInit
    by_cases ha : f.is_async = true
    · rw [ha]
      simp only [Bool.not_true, Bool.false_eq_true, if_false]
      unfold reactiveInit
      dsimp only
      exact h
    · rw [Bool.not_eq_true] at ha
      rw [ha]
      simp only [Bool.not_false, if_true]
      exact h
  | opObserverInit f => exact observerInit_sig_pres fuel s f o n h
  | opObserverAsyncInit f => exact observerAsyncInit_sig_pres fuel s f o n h

lemma applyOps_sig_destroyed (fuel : Nat) (s : RState) (ops : List APIOp)
    (o n : Nat) (h : obsSig s o = some (true, n)) :
    obsSig (applyOps fuel s ops) o = some (true, n) := by
  induction ops generalizing s with
  | nil => exact h
  | cons op rest ih =>
    unfold applyOps
    exact ih _ (applyOp_sig_destroyed fuel s op o n h)

/-- C6: `Observer.destroy` sets the destroyed flag (leaving the counter
untouched) and invalidates the current context if any; destruction is
terminal — under every subsequent sequence of public operations, flushes
included, the flag stays set and the user function is never invoked again
(the counter never moves, because every scheduled flush callback checks
the destroyed flag and skips the re-run). -/
theorem claim_C6_destroy_terminal (fuel : Nat) (s : RState) (o : Nat)
    (ob : ObserverSt) (h : s.observers[o]? = some ob) :
    obsSig (observerDestroy fuel s o) o = some (true, ob._exec_count) ∧
    (∀ cid, ob._ctx = some cid → cid < s.contexts.length →
      ∃ c, (observerDestroy fuel s o).contexts[cid]? = some c ∧
        c.invalidated = true) ∧
    (∀ fuel2 ops, obsSig (applyOps fuel2 (observerDestroy fuel s o) ops) o =
      some (true, ob._exec_count)) := by
  have h1 : obsSig (observerDestroy fuel s o) o = some (true, ob._exec_count) := by
    unfold observerDestroy
    rw [h]
    dsimp only
    have hmark : obsSig (mapObserver s o (fun ob0 => { ob0 with _destroyed := true }))
        o = some (true, ob._exec_count) := by
      unfold obsSig mapObserver
      dsimp only
      rw [List.getElem?_modify_eq, h]
      rfl
    cases hoc : ob._ctx with
    | none => exact hmark
    | some cid => exact ((ctxInvalidate_preserves fuel _ _).2.1 o).trans hmark
  refine ⟨h1, ?_, fun fuel2 ops => applyOps_sig_destroyed fuel2 _ ops o _ h1⟩
  intro cid hoc hlt
  unfold observerDestroy
  rw [h]
  dsimp only
  rw [hoc]
  exact ctxInvalidate_marks fuel _ cid _
    (List.getElem?_eq_getElem (by exact hlt))

/-- C6 witness: destroying the lone observer (with a live context 0) in a
concrete state sets its flag, invalidates context 0, and a subsequent
flush, write, read and re-destroy leave its flag and counter unchanged. -/
theorem claim_C6_witness :
    obsSig (observerDestroy 2
      ⟨[⟨0, false, [], [FlushCb.observerFlush 0]⟩], [⟨PyObj.obj 1 0, []⟩],
        [], [⟨OFun.noopO, false, [], false, some 0, 3⟩], none, [0], []⟩ 0) 0 =
      some (true, 3) ∧
    (∀ cid, some 0 = some cid → cid < 1 →
      ∃ c, (observerDestroy 2
        ⟨[⟨0, false, [], [FlushCb.observerFlush 0]⟩], [⟨PyObj.obj 1 0, []⟩],
          [], [⟨OFun.noopO, false, [], false, some 0, 3⟩], none, [0], []⟩
        0).contexts[cid]? = some c ∧ c.invalidated = true) ∧
    (∀ fuel2 ops, obsSig (applyOps fuel2 (observerDestroy 2
      ⟨[⟨0, false, [], [FlushCb.observerFlush 0]⟩], [⟨PyObj.obj 1 0, []⟩],
        [], [⟨OFun.noopO, false, [], false, some 0, 3⟩], none, [0], []⟩ 0) ops) 0 =
      some (true, 3)) :=
  claim_C6_destroy_terminal 2
    ⟨[⟨0, false, [], [FlushCb.observerFlush 0]⟩], [⟨PyObj.obj 1 0, []⟩],
      [], [⟨OFun.noopO, false, [], false, some 0, 3⟩], none, [0], []⟩ 0
    ⟨OFun.noopO, false, [], false, some 0, 3⟩ rfl

/-- C8 counterexample: `"a\n"` is accepted by `validate_id` (Python's `$`
matches before a trailing newline) but does not match the spec's stated
pattern `^\.?[A-Za-z0-9_]+$` read as a full anchored match. -/
theorem claim_C8_counterexample :
    validate_id "a\n" = Except.ok () ∧ specIdMatch "a\n" = false := by
  constructor <;> rfl

/-- C8 (amended): identifier validation succeeds iff the string consists of
an optional leading dot, one or more word characters, and an optional single
trailing newline (Python `re.match` of `^\.?\w+$`, whose `$` also matches
just before a final newline); and every outcome is either success or a
`ValueError` whose message names the offending string. -/
theorem claim_C8_validate_id (s : String) :
    (validate_id s = Except.ok () ↔
      ∃ d w t, s.data = d ++ w ++ t ∧ (d = [] ∨ d = ['.']) ∧ w ≠ [] ∧
        (∀ c ∈ w, pyWordChar c = true) ∧ (t = [] ∨ t = ['\n'])) ∧
    (validate_id s = Except.ok () ∨
      validate_id s = Except.error (invalidIdMessage s)) := by
  constructor
  · have hmain : reValidIdMatch s = true ↔
        ∃ d w t, s.data = d ++ w ++ t ∧ (d = [] ∨ d = ['.']) ∧ w ≠ [] ∧
          (∀ c ∈ w, pyWordChar c = true) ∧ (t = [] ∨ t = ['\n']) := by
      unfold reValidIdMatch
      cases hdata : s.data with
      | nil =>
        simp only [hdata]
        constructor
        · intro h
          exact absurd h (by simp)
        · rintro ⟨d, w, t, hl, hd, hwne, hw, ht⟩
          cases w with
          | nil => exact absurd rfl hwne
          | cons x w' =>
            rcases hd with h1 | h1 <;> subst h1 <;> simp at hl
      | cons c rest =>
        simp only [hdata]
        by_cases hc : c = '.'
        · subst hc
          rw [if_pos rfl, wordPlusDollar_iff]
          constructor
          · rintro ⟨w, t, hl, hwne, hw, ht⟩
            exact ⟨['.'], w, t, by simp [hl], Or.inr rfl, hwne, hw, ht⟩
          · rintro ⟨d, w, t, hl, hd, hwne, hw, ht⟩
            rcases hd with hd | hd
            · subst hd
              simp only [List.nil_append] at hl
              cases w with
              | nil => exact absurd rfl hwne
              | cons x w' =>
                simp only [List.cons_append, List.cons.injEq] at hl
                have : pyWordChar '.' = true := hl.1 ▸ hw x (List.mem_cons_self x w')
                exact absurd this (by decide)
            · subst hd
              rw [List.append_assoc, List.singleton_append] at hl
              exact ⟨w, t, (List.cons.inj hl).2, hwne, hw, ht⟩
        · rw [if_neg hc, wordPlusDollar_iff]
          constructor
          · rintro ⟨w, t, hl, hwne, hw, ht⟩
            exact ⟨[], w, t, by simp [hl], Or.inl rfl, hwne, hw, ht⟩
          · rintro ⟨d, w, t, hl, hd, hwne, hw, ht⟩
            rcases hd with hd | hd
            · subst hd
              simp only [List.nil_append] at hl
              exact ⟨w, t, hl, hwne, hw, ht⟩
            · subst hd
              rw [List.append_assoc, List.singleton_append] at hl
              exact absurd (List.cons.inj hl).1 hc
    unfold validate_id
    by_cases h : reValidIdMatch s = true
    · simp only [h, if_true]
      constructor
      · intro _
        exact hmain.mp h
      · intro _
        trivial
    · simp only [Bool.not_eq_true] at h
      simp only [h, Bool.false_eq_true, if_false]
      constructor
      · intro hcontra
        exact absurd hcontra (by simp)
      · intro hd
        have hmm : reValidIdMatch s = true := hmain.mpr hd
        rw [hmm] at h
        exact absurd h (by simp)
  · unfold validate_id
    by_cases h : reValidIdMatch s = true
    · simp [h]
    · simp only [Bool.not_eq_true] at h
      simp [h]

/-- C10: `resolve_id` returns an already-`ResolvedId` argument unchanged,
with no validation even when the string is malformed; a plain string is
validated — failing with the naming error when malformed — and returned
bare under the root (empty) namespace, or joined to the namespace with a
single `-` otherwise. -/
theorem claim_C10_resolve_id (ns s : String) :
    (resolve_id ns (Id.resolvedId s) = Except.ok s) ∧
    (reValidIdMatch s = false →
      resolve_id ns (Id.plainId s) = Except.error (invalidIdMessage s)) ∧
    (reValidIdMatch s = true →
      resolve_id ns (Id.plainId s) =
        if ns = "" then Except.ok s else Except.ok (ns ++ "-" ++ s)) := by
  refine ⟨rfl, ?_, ?_⟩
  · intro h
    simp [resolve_id, resolvedIdCall, validate_id, h]
  · intro h
    simp [resolve_id, resolvedIdCall, validate_id, h]

/-- C10 witness: at a concrete namespace, a malformed `ResolvedId` passes
through untouched, a malformed plain string is rejected with the naming
error, and a valid plain string is prefixed with `-`. -/
theorem claim_C10_witness :
    (resolve_id "outer" (Id.resolvedId "a b") = Except.ok "a b") ∧
    (resolve_id "outer" (Id.plainId "a b") =
      Except.error (invalidIdMessage "a b")) ∧
    (resolve_id "outer" (Id.plainId "abc") = Except.ok "outer-abc") := by
  refine ⟨(claim_C10_resolve_id "outer" "a b").1,
    (claim_C10_resolve_id "outer" "a b").2.1 (by rfl), ?_⟩
  have h := (claim_C10_resolve_id "outer" "abc").2.2 (by rfl)
  simpa using h

end Shiny
